import Mathlib

/-! Shallow embedding of the round-cleaning core of
`src/awpy/parser/demoparser.py` (fork JuhaKiili/awpy).

JSON dictionaries become structures.  Fields the source treats as
possibly-null collections (`frames`, `kills`, team `players`, ...) are
`Option (List _)`, with `none` standing for a null or absent collection.
Player coordinates are floats in the source but are only ever compared
for equality with 0, for sign, or for equality with each other, so `Int`
models them faithfully with respect to those operations.  Python's `%`
on integers with a positive modulus agrees with Lean's `Int` `%`
(`Int.emod`). -/

structure Player where
  steamID : Int
  name : String
  side : String
  x : Int
  y : Int
  z : Int
  isAlive : Bool
  deriving DecidableEq

structure TeamState where
  teamName : String
  players : Option (List Player)
  deriving DecidableEq

structure Frame where
  tick : Int
  globalFrameID : Int
  t : TeamState
  ct : TeamState
  deriving DecidableEq

structure Kill where
  attackerSteamID : Int
  victimSteamID : Int
  attackerSide : String
  victimSide : String
  weapon : String
  deriving DecidableEq

structure Damage where
  attackerSteamID : Int
  victimSteamID : Int
  attackerSide : String
  victimSide : String
  deriving DecidableEq

structure Grenade where
  throwerSteamID : Int
  throwerSide : String
  deriving DecidableEq

structure WeaponFire where
  playerSteamID : Int
  playerSide : String
  deriving DecidableEq

structure Flash where
  attackerSteamID : Int
  playerSteamID : Int
  attackerSide : String
  playerSide : String
  deriving DecidableEq

structure GameRound where
  roundNum : Int
  isWarmup : Bool
  startTick : Int
  freezeTimeEndTick : Int
  endTick : Int
  endOfficialTick : Int
  tScore : Int
  ctScore : Int
  endTScore : Int
  endCTScore : Int
  winningSide : String
  roundEndReason : String
  tSide : TeamState
  ctSide : TeamState
  frames : Option (List Frame)
  kills : Option (List Kill)
  damages : Option (List Damage)
  grenades : Option (List Grenade)
  flashes : Option (List Flash)
  weaponFires : Option (List WeaponFire)
  deriving DecidableEq

structure Game where
  mapName : String
  /-- whether the key `"warmupChanged"` occurs in `json["matchPhases"]`
  (`"warmupChanged" in self.json["matchPhases"]` in the source). -/
  warmupChangedPresent : Bool
  gameRounds : Option (List GameRound)
  deriving DecidableEq

/-! ## Score-consistency checker (`_has_winner_and_not_winner`,
`remove_bad_scoring`, demoparser.py lines 1022-1110) -/

/-- `tScore + endTScore + ctScore + endCTScore` of a round, the running
total computed inside `remove_bad_scoring`. -/
def roundTotal (r : GameRound) : Int :=
  r.tScore + r.endTScore + r.ctScore + r.endCTScore

/-- Direct transcription of `_has_winner_and_not_winner`
(`tie_score = 15`, `ot_tie_score = 3`, constants inlined). -/
def has_winner_and_not_winner (r : GameRound) : Bool :=
  ((r.endCTScore == 15 + 1) && decide (r.endTScore < 15))
  || ((r.endTScore == 15 + 1) && decide (r.endCTScore < 15))
  || (((r.endCTScore - 15 - 1) % 3 == 0)
      && decide (r.endTScore < r.endCTScore - 1)
      && decide (r.endCTScore > 15))
  || (((r.endTScore - 15 - 1) % 3 == 0)
      && decide (r.endCTScore < r.endTScore - 1)
      && decide (r.endTScore > 15))

/-- Python list indexing: a negative index `-k` addresses `l[len - k]`,
as in `self.json["gameRounds"][i - 1]` at `i = 0`. -/
def pyIdx {α : Type} (l : List α) (i : Int) : Option α :=
  if 0 ≤ i then l.get? i.toNat
  else if (-i).toNat ≤ l.length then l.get? (l.length - (-i).toNat)
  else none

/-- The loop body of `remove_bad_scoring`: round `i` is appended to
`cleaned_rounds` iff its retention test passes. -/
def remove_bad_scoring_list (rounds : List GameRound) : List GameRound :=
  (List.range rounds.length).filterMap (fun i =>
    (rounds.get? i).bind (fun r =>
      if i < rounds.length - 1 then
        (rounds.get? (i + 1)).bind (fun la =>
          if decide (roundTotal la > roundTotal r) || has_winner_and_not_winner r
          then some r else none)
      else
        (pyIdx rounds ((i : Int) - 1)).bind (fun lb =>
          if decide (roundTotal r > roundTotal lb) then some r else none)))

/-- `remove_bad_scoring`: returns unchanged when `gameRounds` is null,
otherwise replaces the round list. -/
def remove_bad_scoring (g : Game) : Game :=
  match g.gameRounds with
  | none => g
  | some rounds => { g with gameRounds := some (remove_bad_scoring_list rounds) }

/-! ## Scalar filters -/

/-- `remove_warmups` (demoparser.py lines 1393-1431): `cleaned_rounds`
starts empty and is only extended when `"warmupChanged"` is a key of
`matchPhases`; the final assignment happens unconditionally. -/
def remove_warmups (g : Game) : Game :=
  let cleaned : List GameRound :=
    if g.warmupChangedPresent then
      (g.gameRounds.getD []).filter (fun r => !r.isWarmup)
    else []
  { g with gameRounds := some cleaned }

/-- `remove_rounds_with_no_frames`: a no-op (with a warning) when frame
parsing was disabled, otherwise keeps rounds with a nonempty frame list. -/
def remove_rounds_with_no_frames (parseFrames : Bool) (g : Game) : Game :=
  if parseFrames then
    let cleaned := (g.gameRounds.getD []).filter (fun r => decide (0 < (r.frames.getD []).length))
    { g with gameRounds := some cleaned }
  else g

/-- The per-round decision of `remove_knife_rounds`: `continue` (drop)
on warmup rounds and on a null kill list; otherwise keep unless every
kill is a knife kill and there is at least one. -/
def knifeStep (r : GameRound) : Option GameRound :=
  if r.isWarmup then none
  else
    match r.kills with
    | none => none
    | some ks =>
      if ((ks.countP (fun k => k.weapon == "Knife") != ks.length)
          || (ks.countP (fun k => k.weapon == "Knife") == 0))
      then some r else none

/-- `remove_knife_rounds` (demoparser.py lines 1459-1484). -/
def remove_knife_rounds (g : Game) : Game :=
  match g.gameRounds with
  | none => g
  | some rounds => { g with gameRounds := some (rounds.filterMap knifeStep) }

/-- `remove_excess_kill_rounds`: keeps non-warmup rounds with at most 10
kills (`n_total_players = 10`, null kill list read as empty). -/
def remove_excess_kill_rounds (g : Game) : Game :=
  let cleaned := (g.gameRounds.getD []).filter
    (fun r => !r.isWarmup && decide ((r.kills.getD []).length ≤ 10))
  { g with gameRounds := some cleaned }

/-- `remove_time_rounds`: keeps rounds whose start tick does not exceed
the end, official-end and freeze-time-end ticks. -/
def remove_time_rounds (g : Game) : Game :=
  let cleaned := (g.gameRounds.getD []).filter
    (fun r => decide (r.startTick ≤ r.endTick)
      && decide (r.startTick ≤ r.endOfficialTick)
      && decide (r.startTick ≤ r.freezeTimeEndTick))
  { g with gameRounds := some cleaned }

/-- The default `bad_endings` blacklist of `remove_end_round`. -/
def bad_endings : List String := ["Draw", "Unknown", ""]

/-- `remove_end_round` with its default argument: returns unchanged when
`gameRounds` is null, otherwise drops blacklisted end reasons. -/
def remove_end_round (g : Game) : Game :=
  match g.gameRounds with
  | none => g
  | some rounds =>
      let cleaned := rounds.filter (fun r => !(bad_endings.contains r.roundEndReason))
      { g with gameRounds := some cleaned }

/-! ## Claim-side definitions for C5 and C6 (written from the claims'
wording, to be compared with the source-side functions above) -/

/-- C5's terminal-win test, written from the claim's words: one side's
end score equals 16 while the other's is below 15 (regulation), or one
side's end score minus 16 is divisible by 3 while that score exceeds 15
and the opposing end score is at least two lower (overtime). -/
def claimTerminalWin (r : GameRound) : Bool :=
  ((r.endTScore == 16) && decide (r.endCTScore < 15))
  || ((r.endCTScore == 16) && decide (r.endTScore < 15))
  || (((r.endTScore - 16) % 3 == 0) && decide (r.endTScore > 15)
      && decide (r.endCTScore ≤ r.endTScore - 2))
  || (((r.endCTScore - 16) % 3 == 0) && decide (r.endCTScore > 15)
      && decide (r.endTScore ≤ r.endCTScore - 2))

/-- C5's retention test, written from the claim's words: a non-final
round is retained iff the next round's total strictly exceeds its own or
it is a terminal win; the final round is retained iff its total strictly
exceeds the immediately preceding round's total. -/
def claimKeep (rounds : List GameRound) (i : Nat) (r : GameRound) : Bool :=
  if i + 1 < rounds.length then
    (match rounds.get? (i + 1) with
     | some nxt => decide (roundTotal nxt > roundTotal r)
     | none => false) || claimTerminalWin r
  else
    match rounds.get? (i - 1) with
    | some prev => decide (roundTotal r > roundTotal prev)
    | none => false

/-- C6's keep-predicate, written from the claim's words as amended: a
round is kept iff it is not a warmup round, its kill list is present,
and it is empty or contains a non-knife kill. -/
def claimKnifeKeep (r : GameRound) : Bool :=
  !r.isWarmup &&
    (match r.kills with
     | none => false
     | some ks => ks.isEmpty || ks.any (fun k => k.weapon != "Knife"))

/-! ## Supporting lemmas -/

theorem filterMap_congr_mem {α β : Type} (l : List α) (f g : α → Option β)
    (h : ∀ a ∈ l, f a = g a) : l.filterMap f = l.filterMap g := by
  induction l with
  | nil => rfl
  | cons x xs ih =>
      rw [List.filterMap_cons, List.filterMap_cons, h x (by simp),
        ih (fun a ha => h a (by simp [ha]))]

theorem hwnw_eq_claim (r : GameRound) :
    has_winner_and_not_winner r = claimTerminalWin r := by
  have h : (has_winner_and_not_winner r = true) ↔ (claimTerminalWin r = true) := by
    simp only [has_winner_and_not_winner, claimTerminalWin, Bool.or_eq_true,
      Bool.and_eq_true, beq_iff_eq, decide_eq_true_eq]
    omega
  cases hl : has_winner_and_not_winner r <;> cases hc : claimTerminalWin r <;>
    simp_all

theorem knifeCond_eq (ks : List Kill) :
    ((ks.countP (fun k => k.weapon == "Knife") != ks.length)
      || (ks.countP (fun k => k.weapon == "Knife") == 0))
    = (ks.isEmpty || ks.any (fun k => k.weapon != "Knife")) := by
  have h : ((ks.countP (fun k => k.weapon == "Knife") != ks.length)
        || (ks.countP (fun k => k.weapon == "Knife") == 0)) = true
      ↔ (ks.isEmpty || ks.any (fun k => k.weapon != "Knife")) = true := by
    simp only [Bool.or_eq_true, bne_iff_ne, ne_eq, beq_iff_eq,
      List.isEmpty_iff, List.any_eq_true, bne_iff_ne]
    constructor
    · rintro (hne | hzero)
      · right
        by_contra hcon
        push_neg at hcon
        exact hne (List.countP_eq_length.mpr (fun k hk => by
          simpa using hcon k hk))
      · rcases ks with _ | ⟨k, ks'⟩
        · exact Or.inl rfl
        · right
          refine ⟨k, by simp, ?_⟩
          have := List.countP_eq_zero.mp hzero k (by simp)
          simpa using this
    · rintro (hempty | ⟨k, hk, hkw⟩)
      · subst hempty; right; rfl
      · left
        intro heq
        exact hkw (by simpa using List.countP_eq_length.mp heq k hk)
  cases hl : ((ks.countP (fun k => k.weapon == "Knife") != ks.length)
      || (ks.countP (fun k => k.weapon == "Knife") == 0)) <;>
    cases hr : (ks.isEmpty || ks.any (fun k => k.weapon != "Knife")) <;>
    simp_all

theorem knifeStep_eq_filter (r : GameRound) :
    knifeStep r = if claimKnifeKeep r then some r else none := by
  unfold knifeStep claimKnifeKeep
  by_cases hw : r.isWarmup
  · simp [hw]
  · simp only [eq_false_of_ne_true hw]
    cases hk : r.kills with
    | none => simp
    | some ks => simp [knifeCond_eq ks]

/-! ## Example data -/

def baseRound : GameRound where
  roundNum := 1
  isWarmup := false
  startTick := 0
  freezeTimeEndTick := 1
  endTick := 2
  endOfficialTick := 3
  tScore := 0
  ctScore := 0
  endTScore := 0
  endCTScore := 0
  winningSide := "CT"
  roundEndReason := "CTWin"
  tSide := { teamName := "TeamA", players := some [] }
  ctSide := { teamName := "TeamB", players := some [] }
  frames := some []
  kills := some []
  damages := some []
  grenades := some []
  flashes := some []
  weaponFires := some []

/-! ## Claim C1 (warmup filter) -/

def gNoMarker : Game where
  mapName := "de_dust2"
  warmupChangedPresent := false
  gameRounds := some [baseRound]

/-- Claim C1, counterexample: a loaded record whose match metadata has no
`warmupChanged` key and whose single round is not a warmup round loses
every round when `remove_warmups` runs, so the filter is not a no-op as
the claim states. -/
theorem C1_counterexample :
    gNoMarker.warmupChangedPresent = false ∧
    gNoMarker.gameRounds = some [baseRound] ∧
    baseRound.isWarmup = false ∧
    (remove_warmups gNoMarker).gameRounds = some [] :=
  ⟨rfl, rfl, rfl, rfl⟩

/-- Claim C1 as amended: when no `warmupChanged` marker exists in the
match metadata, `remove_warmups` empties the round list (every round is
dropped); when it exists, exactly the rounds flagged `isWarmup` are
dropped and all others are kept. -/
theorem C1_amended (g : Game) :
    (remove_warmups g).gameRounds =
      some (if g.warmupChangedPresent then
              (g.gameRounds.getD []).filter (fun r => !r.isWarmup)
            else []) := rfl

/-! ## Claim C6 (knife-round filter) -/

def roundNullKills : GameRound :=
  { baseRound with kills := none, roundEndReason := "TargetBombed" }

def roundWarmupNoKills : GameRound :=
  { baseRound with isWarmup := true }

def gKnife : Game where
  mapName := "de_dust2"
  warmupChangedPresent := true
  gameRounds := some [roundNullKills, roundWarmupNoKills]

/-- Claim C6, counterexample: a non-warmup round with an absent (null)
kill list and a warmup round with zero kills are both dropped by
`remove_knife_rounds`, although the claim says every round with zero
kills (absent treated as empty) is kept. -/
theorem C6_counterexample :
    roundNullKills.kills = none ∧
    roundNullKills.isWarmup = false ∧
    roundWarmupNoKills.kills = some [] ∧
    (remove_knife_rounds gKnife).gameRounds = some [] :=
  ⟨rfl, rfl, rfl, rfl⟩

/-- Claim C6 as amended: `remove_knife_rounds` keeps a round iff it is
not flagged warmup, its kill list is present (non-null), and the kill
list is empty or contains at least one non-knife kill; equivalently it
drops warmup rounds, rounds with a null kill list, and rounds whose at
least one kill is a knife kill with no non-knife kill. -/
theorem knife_list_eq_filter (rounds : List GameRound) :
    rounds.filterMap knifeStep = rounds.filter claimKnifeKeep := by
  induction rounds with
  | nil => rfl
  | cons r rs ih =>
      rw [List.filterMap_cons, List.filter_cons, knifeStep_eq_filter r]
      by_cases hk : claimKnifeKeep r
      · simp [hk, ih]
      · simp [hk, ih]

theorem C6_amended (g : Game) (rounds : List GameRound)
    (h : g.gameRounds = some rounds) :
    (remove_knife_rounds g).gameRounds = some (rounds.filter claimKnifeKeep) := by
  unfold remove_knife_rounds
  rw [h]
  show some (rounds.filterMap knifeStep) = some (rounds.filter claimKnifeKeep)
  rw [knife_list_eq_filter]

def roundEmptyKills : GameRound :=
  { baseRound with roundEndReason := "TargetBombed" }

def gKnifeKept : Game where
  mapName := "de_dust2"
  warmupChangedPresent := true
  gameRounds := some [roundEmptyKills]

/-- Witness for `C6_amended` at a concrete record: a non-warmup round
with a present empty kill list is kept. -/
theorem C6_amended_witness :
    (remove_knife_rounds gKnifeKept).gameRounds =
      some ([roundEmptyKills].filter claimKnifeKeep) :=
  C6_amended gKnifeKept [roundEmptyKills] rfl

/-! ## Claim C10 (single-round record and `remove_bad_scoring`) -/

/-- Claim C10: a record whose round list contains exactly one round has
that round removed unconditionally by `remove_bad_scoring`: the sole
round takes the final-round branch, the Python lookback index `-1`
selects the round itself, and the strict comparison of its total with
itself fails. -/
theorem C10_single_round_removed (g : Game) (r : GameRound)
    (h : g.gameRounds = some [r]) :
    remove_bad_scoring g = { g with gameRounds := some [] } := by
  unfold remove_bad_scoring
  rw [h]
  have hlist : remove_bad_scoring_list [r] = [] := by
    have hdec : decide (roundTotal r > roundTotal r) = false := by
      simp
    simp [remove_bad_scoring_list, pyIdx, hdec]
  show ({ g with gameRounds := some (remove_bad_scoring_list [r]) } : Game) =
    { g with gameRounds := some [] }
  rw [hlist]

def gSingle : Game where
  mapName := "de_dust2"
  warmupChangedPresent := true
  gameRounds := some [baseRound]

/-- Witness for `C10_single_round_removed` at a concrete record. -/
theorem C10_witness :
    remove_bad_scoring gSingle = { gSingle with gameRounds := some [] } :=
  C10_single_round_removed gSingle baseRound rfl

/-! ## Claim C5 (score-consistency retention rule) -/

/-- Claim C5: for a match with at least two rounds, `remove_bad_scoring`
retains a non-final round iff the next round's total strictly exceeds
its own or it is a terminal win in the claim's sense (`claimTerminalWin`),
and retains the final round iff its total strictly exceeds the
immediately preceding round's total. -/
theorem C5_retention (rounds : List GameRound) (h2 : 2 ≤ rounds.length) :
    remove_bad_scoring_list rounds =
      (List.range rounds.length).filterMap (fun i =>
        (rounds.get? i).bind (fun r =>
          if claimKeep rounds i r then some r else none)) := by
  unfold remove_bad_scoring_list
  apply filterMap_congr_mem
  intro i hi
  have hilen : i < rounds.length := List.mem_range.mp hi
  obtain ⟨r, hr⟩ : ∃ r, rounds.get? i = some r :=
    ⟨rounds.get ⟨i, hilen⟩, List.get?_eq_get hilen⟩
  rw [hr]
  simp only [Option.some_bind]
  by_cases hlast : i < rounds.length - 1
  · have h1 : i + 1 < rounds.length := by omega
    obtain ⟨la, hla⟩ : ∃ la, rounds.get? (i + 1) = some la :=
      ⟨rounds.get ⟨i + 1, h1⟩, List.get?_eq_get h1⟩
    rw [if_pos hlast]
    unfold claimKeep
    rw [if_pos h1, hla]
    simp only [Option.some_bind, hwnw_eq_claim]
  · have hieq : i = rounds.length - 1 := by omega
    have hnot : ¬ (i + 1 < rounds.length) := by omega
    have hpy : pyIdx rounds ((i : Int) - 1) = rounds.get? (i - 1) := by
      unfold pyIdx
      rw [if_pos (by omega : (0 : Int) ≤ (i : Int) - 1)]
      congr 1
      omega
    rw [if_neg hlast, hpy]
    unfold claimKeep
    rw [if_neg hnot]
    rcases hgb : rounds.get? (i - 1) with _ | prev
    · simp
    · simp only [Option.some_bind]

def roundTerminal : GameRound :=
  { baseRound with tScore := 10, ctScore := 15, endTScore := 10, endCTScore := 16 }

/-- Witness for `C5_retention` at a concrete two-round list: a terminal
regulation win followed by a lower-total round. -/
theorem C5_witness :
    remove_bad_scoring_list [roundTerminal, baseRound] =
      (List.range ([roundTerminal, baseRound] : List GameRound).length).filterMap
        (fun i =>
          (([roundTerminal, baseRound] : List GameRound).get? i).bind (fun r =>
            if claimKeep [roundTerminal, baseRound] i r then some r else none)) :=
  C5_retention [roundTerminal, baseRound] (by decide)

/-! ## Roster removal (`remove_player_from_round`,
`remove_coaches_in_origin`, `remove_coaches_not_moving`,
`findFirstDeadPlayer`, demoparser.py lines 1137-1204) -/

/-- Semantics of Python's `for x in lst: if p(x): lst.remove(x)` used by
`remove_player_from_round`: when an element matches it is removed and the
iterator then skips the element that shifted into its slot. -/
def pyRemoveLoop {α : Type} (p : α → Bool) : List α → List α
  | [] => []
  | [x] => if p x then [] else [x]
  | x :: y :: xs =>
      if p x then y :: pyRemoveLoop p xs else x :: pyRemoveLoop p (y :: xs)

theorem pyRemoveLoop_id {α : Type} (p : α → Bool) :
    ∀ l : List α, (∀ x ∈ l, p x = false) → pyRemoveLoop p l = l
  | [], _ => rfl
  | [x], h => by simp [pyRemoveLoop, h x (by simp)]
  | x :: y :: xs, h => by
      rw [pyRemoveLoop, h x (by simp)]
      show x :: pyRemoveLoop p (y :: xs) = x :: y :: xs
      rw [pyRemoveLoop_id p (y :: xs) (fun z hz => h z (by simp [hz]))]

theorem pyRemoveLoop_count_le_one {α : Type} (p : α → Bool) :
    ∀ l : List α, l.countP p ≤ 1 → pyRemoveLoop p l = l.filter (fun x => !p x)
  | [], _ => rfl
  | [x], _ => by by_cases hx : p x <;> simp [pyRemoveLoop, hx]
  | x :: y :: xs, h => by
      rw [pyRemoveLoop]
      by_cases hx : p x
      · have hc : (y :: xs).countP p = 0 := by
          rw [List.countP_cons] at h
          simp only [hx, if_pos] at h
          omega
        have h0 : ∀ z ∈ y :: xs, p z = false := fun z hz => by
          have := List.countP_eq_zero.mp hc z hz
          simpa using this
        have hy := h0 y (by simp)
        have hxs : ∀ z ∈ xs, p z = false := fun z hz => h0 z (by simp [hz])
        rw [if_pos hx, pyRemoveLoop_id p xs hxs]
        conv_rhs => rw [List.filter_cons]
        simp only [hx, Bool.not_true, Bool.false_eq_true, if_false]
        conv_rhs => rw [List.filter_cons]
        simp only [hy, Bool.not_false, if_true]
        rw [List.filter_eq_self.mpr (fun a ha => by simp [hxs a ha])]
      · have hx' : p x = false := by simpa using hx
        have hle : (y :: xs).countP p ≤ 1 := by
          rw [List.countP_cons] at h
          simp only [hx', Bool.false_eq_true, if_false] at h
          omega
        rw [if_neg hx, pyRemoveLoop_count_le_one p (y :: xs) hle]
        conv_rhs => rw [List.filter_cons]
        simp only [hx', Bool.not_false, if_true]

/-- Remove every entry with the given steam id from a team's player list,
with the Python remove-while-iterating semantics; a null list is left
untouched (the frame loop of the source guards for it). -/
def removeSidTeam (sid : Int) (t : TeamState) : TeamState :=
  { t with players := t.players.map (pyRemoveLoop (fun p => p.steamID == sid)) }

def removeSidFrame (sid : Int) (f : Frame) : Frame :=
  { f with t := removeSidTeam sid f.t, ct := removeSidTeam sid f.ct }

/-- `remove_player_from_round`: drop the player from `tSide`/`ctSide`
and from every frame's `t`/`ct` player lists; event lists untouched. -/
def remove_player_from_round (r : GameRound) (sid : Int) : GameRound :=
  { r with
    tSide := removeSidTeam sid r.tSide,
    ctSide := removeSidTeam sid r.ctSide,
    frames := r.frames.map (fun fs => fs.map (removeSidFrame sid)) }

/-- `player["x"] == 0 and player["y"] == 0 and player["z"] == 0`. -/
def atOrigin (p : Player) : Bool := p.x == 0 && p.y == 0 && p.z == 0

/-- `remove_coaches_in_origin`: collect the players of the first frame
(t side then ct side) at the exact origin, then remove each of them from
the round.  The source indexes `frames[0]` directly and is only called
with a nonempty frame list; an empty one is returned unchanged here. -/
def remove_coaches_in_origin (r : GameRound) : GameRound :=
  match (r.frames.getD []).head? with
  | none => r
  | some f0 =>
      let toBeRemoved :=
        ((f0.t.players.getD []) ++ (f0.ct.players.getD [])).filter atOrigin
      toBeRemoved.foldl (fun acc p => remove_player_from_round acc p.steamID) r

/-- whether a first-frame player ever appears with a different position
in a later frame of the same side (`remove_coaches_not_moving`). -/
def movedFrom (p : Player) (rest : List Frame) (sel : Frame → TeamState) : Bool :=
  rest.any (fun fr => ((sel fr).players.getD []).any
    (fun q => q.steamID == p.steamID && !(q.x == p.x && q.y == p.y && q.z == p.z)))

/-- `remove_coaches_not_moving`: first-frame players (t side then ct side)
whose position never changes across the round are removed. -/
def remove_coaches_not_moving (r : GameRound) : GameRound :=
  match r.frames.getD [] with
  | [] => r
  | f0 :: rest =>
      let tCand := (f0.t.players.getD []).filter
        (fun p => !(movedFrom p rest (fun fr => fr.t)))
      let cCand := (f0.ct.players.getD []).filter
        (fun p => !(movedFrom p rest (fun fr => fr.ct)))
      (tCand ++ cCand).foldl (fun acc p => remove_player_from_round acc p.steamID) r

/-- Inner player loop of `findFirstDeadPlayer`.  The second component
records whether the Python loop executed a `return`.  Note the
`firstDied is None` branch returns immediately, which makes the
lowest-steam-id `elif` branch unreachable. -/
def fdpPlayers (acc : Option Int) : List Player → Option Int × Bool
  | [] => (acc, false)
  | p :: ps =>
      if !p.isAlive then
        match acc with
        | none => (some p.steamID, true)
        | some a => if p.steamID < a then (some p.steamID, true) else fdpPlayers acc ps
      else fdpPlayers acc ps

/-- Outer frame loop of `findFirstDeadPlayer`. -/
def fdpFrames (sel : Frame → TeamState) (acc : Option Int) : List Frame → Option Int
  | [] => acc
  | f :: fs =>
      match fdpPlayers acc (((sel f).players).getD []) with
      | (v, true) => v
      | (acc2, false) => fdpFrames sel acc2 fs

/-- `findFirstDeadPlayer(game_round, side)`, with the side selected by a
projection (`fun f => f.t` or `fun f => f.ct`). -/
def findFirstDeadPlayer (r : GameRound) (sel : Frame → TeamState) : Option Int :=
  fdpFrames sel none (r.frames.getD [])

/-- All players of one side across the frames, in scan order. -/
def sidePlayersFlat (frames : List Frame) (sel : Frame → TeamState) : List Player :=
  frames.foldr (fun f acc => ((sel f).players.getD []) ++ acc) []

/-- C7's claimed selection rule, written from the claim's words: take
the chronologically first frame containing a dead player on the side,
then the lowest steam id among the dead players of that frame. -/
def claimFirstDeadPlayer (r : GameRound) (sel : Frame → TeamState) : Option Int :=
  match (r.frames.getD []).find?
      (fun f => ((sel f).players.getD []).any (fun p => !p.isAlive)) with
  | none => none
  | some f =>
      (((sel f).players.getD []).filterMap
        (fun p => if p.isAlive then none else some p.steamID)).min?

theorem find?_append_cases {α : Type} (p : α → Bool) :
    ∀ l1 l2 : List α, (l1 ++ l2).find? p =
      (match l1.find? p with
       | some a => some a
       | none => l2.find? p)
  | [], _ => rfl
  | x :: xs, l2 => by
      by_cases hx : p x
      · simp [List.find?_cons, hx]
      · have hx' : p x = false := by simpa using hx
        simp only [List.cons_append, List.find?_cons, hx', cond_false]
        exact find?_append_cases p xs l2

theorem fdpPlayers_none (ps : List Player) :
    fdpPlayers none ps =
      (match ps.find? (fun p => !p.isAlive) with
       | some p => (some p.steamID, true)
       | none => (none, false)) := by
  induction ps with
  | nil => rfl
  | cons p ps ih =>
      by_cases hp : p.isAlive
      · rw [fdpPlayers]
        simp only [hp, Bool.not_true, Bool.false_eq_true, if_neg, ite_false]
        rw [List.find?_cons]
        simp only [hp, Bool.not_true, cond_false]
        exact ih
      · have hp' : p.isAlive = false := by simpa using hp
        rw [fdpPlayers]
        simp [hp', List.find?_cons]

theorem fdpFrames_none (sel : Frame → TeamState) :
    ∀ fs : List Frame, fdpFrames sel none fs =
      ((sidePlayersFlat fs sel).find? (fun p => !p.isAlive)).map (fun p => p.steamID)
  | [] => rfl
  | f :: fs => by
      rw [fdpFrames, fdpPlayers_none]
      have happ := find?_append_cases (fun p => !p.isAlive)
        (((sel f).players).getD []) (sidePlayersFlat fs sel)
      rcases hf : (((sel f).players).getD []).find? (fun p => !p.isAlive) with _ | p
      · simp only [hf]
        rw [fdpFrames_none sel fs]
        have : sidePlayersFlat (f :: fs) sel =
            ((sel f).players).getD [] ++ sidePlayersFlat fs sel := rfl
        rw [this, happ, hf]
      · simp only [hf]
        have : sidePlayersFlat (f :: fs) sel =
            ((sel f).players).getD [] ++ sidePlayersFlat fs sel := rfl
        rw [this, happ, hf]
        rfl

/-- Claim C7 as amended: `findFirstDeadPlayer` returns the steam id of
the first not-alive player in scan order (frames chronologically,
players in list order within a frame); the lowest-steam-id preference
claimed for dead players found in the same scan never applies, because
the first match returns immediately. -/
theorem C7_amended (r : GameRound) (sel : Frame → TeamState) :
    findFirstDeadPlayer r sel =
      ((sidePlayersFlat (r.frames.getD []) sel).find? (fun p => !p.isAlive)).map
        (fun p => p.steamID) :=
  fdpFrames_none sel (r.frames.getD [])

def deadP (sid : Int) : Player :=
  { steamID := sid, name := "d", side := "T", x := 1, y := 1, z := 1, isAlive := false }

def f7 : Frame :=
  { tick := 0, globalFrameID := 0,
    t := { teamName := "TeamA", players := some [deadP 9, deadP 3] },
    ct := { teamName := "TeamB", players := some [] } }

def r7 : GameRound := { baseRound with frames := some [f7] }

/-- Claim C7, counterexample: in a frame whose dead players are listed
as steam ids 9 then 3, the code selects 9 (first in list order) while
the claim's lowest-steam-id rule selects 3. -/
theorem C7_counterexample :
    findFirstDeadPlayer r7 (fun f => f.t) = some 9 ∧
    claimFirstDeadPlayer r7 (fun f => f.t) = some 3 ∧
    ((9 : Int) = 3) = False := by
  refine ⟨by decide, by decide, by simp⟩

/-! ## Claim C3 (what full removal touches) -/

/-- The five event lists of a round, bundled. -/
def eventsOf (r : GameRound) :
    Option (List Kill) × Option (List Damage) × Option (List Grenade) ×
      Option (List Flash) × Option (List WeaponFire) :=
  (r.kills, r.damages, r.grenades, r.flashes, r.weaponFires)

def countSid (sid : Int) (l : List Player) : Nat :=
  l.countP (fun p => p.steamID == sid)

/-- the steam id occurs at most once in each player list of the round. -/
def sidUniquePerList (r : GameRound) (sid : Int) : Bool :=
  decide (countSid sid (r.tSide.players.getD []) ≤ 1) &&
  decide (countSid sid (r.ctSide.players.getD []) ≤ 1) &&
  (r.frames.getD []).all (fun f =>
    decide (countSid sid (f.t.players.getD []) ≤ 1) &&
    decide (countSid sid (f.ct.players.getD []) ≤ 1))

/-- no roster entry and no frame player entry carries the steam id. -/
def noSidInRound (r : GameRound) (sid : Int) : Bool :=
  (r.tSide.players.getD []).all (fun p => p.steamID != sid) &&
  (r.ctSide.players.getD []).all (fun p => p.steamID != sid) &&
  (r.frames.getD []).all (fun f =>
    (f.t.players.getD []).all (fun p => p.steamID != sid) &&
    (f.ct.players.getD []).all (fun p => p.steamID != sid))

theorem removeSidTeam_all (sid : Int) (t : TeamState)
    (h : countSid sid (t.players.getD []) ≤ 1) :
    ((removeSidTeam sid t).players.getD []).all (fun p => p.steamID != sid) = true := by
  unfold countSid at h
  cases hp : t.players with
  | none => simp [removeSidTeam, hp]
  | some l =>
      rw [hp] at h
      simp only [Option.getD_some] at h
      have hrw := pyRemoveLoop_count_le_one (fun p => p.steamID == sid) l h
      unfold removeSidTeam
      rw [hp]
      show (pyRemoveLoop (fun p => p.steamID == sid) l).all (fun p => p.steamID != sid) = true
      rw [hrw]
      simp only [List.all_eq_true, List.mem_filter]
      intro p hpmem
      simpa [bne] using hpmem.2

theorem events_foldl_remove (l : List Player) :
    ∀ r : GameRound,
      eventsOf (l.foldl (fun acc p => remove_player_from_round acc p.steamID) r) =
        eventsOf r := by
  induction l with
  | nil => intro r; rfl
  | cons p ps ih =>
      intro r
      rw [List.foldl_cons, ih]
      rfl

/-- Claim C3 as amended: full removal (`remove_player_from_round`, and
hence coach removal) deletes the player from both side rosters and from
every frame's player lists, but leaves every event list (kills, damages,
grenades, flashes, weaponFires) untouched, so events may still reference
the removed steam id.  The purge statement assumes the steam id occurs
at most once per player list (steam ids are unique identifiers within a
frame/roster), since the Python remove-while-iterating idiom can skip an
entry that immediately follows a removed one. -/
theorem C3_amended :
    (∀ (r : GameRound) (sid : Int),
      eventsOf (remove_player_from_round r sid) = eventsOf r) ∧
    (∀ r : GameRound, eventsOf (remove_coaches_in_origin r) = eventsOf r) ∧
    (∀ (r : GameRound) (sid : Int), sidUniquePerList r sid = true →
      noSidInRound (remove_player_from_round r sid) sid = true) := by
  refine ⟨fun r sid => rfl, ?_, ?_⟩
  · intro r
    unfold remove_coaches_in_origin
    rcases (r.frames.getD []).head? with _ | f0
    · rfl
    · exact events_foldl_remove _ r
  · intro r sid h
    unfold sidUniquePerList at h
    simp only [Bool.and_eq_true, List.all_eq_true] at h
    obtain ⟨⟨ht, hc⟩, hf⟩ := h
    unfold noSidInRound
    simp only [Bool.and_eq_true]
    refine ⟨⟨?_, ?_⟩, ?_⟩
    · exact removeSidTeam_all sid r.tSide (of_decide_eq_true ht)
    · exact removeSidTeam_all sid r.ctSide (of_decide_eq_true hc)
    · rw [List.all_eq_true]
      intro f hfmem
      have hframes : (remove_player_from_round r sid).frames =
          r.frames.map (fun fs => fs.map (removeSidFrame sid)) := rfl
      rw [hframes] at hfmem
      cases hfr : r.frames with
      | none =>
          rw [hfr] at hfmem
          exact absurd hfmem (by simp)
      | some fs =>
          rw [hfr] at hfmem
          replace hfmem : f ∈ fs.map (removeSidFrame sid) := hfmem
          obtain ⟨f0, hf0mem, hf0eq⟩ := List.mem_map.mp hfmem
          have hfs := hf f0 (by rw [hfr]; exact hf0mem)
          simp only [Bool.and_eq_true] at hfs
          subst hf0eq
          simp only [Bool.and_eq_true]
          exact ⟨removeSidTeam_all sid f0.t (of_decide_eq_true hfs.1),
                 removeSidTeam_all sid f0.ct (of_decide_eq_true hfs.2)⟩

def coachP : Player :=
  { steamID := 7, name := "coach", side := "T", x := 0, y := 0, z := 0, isAlive := true }

def fieldP (sid : Int) (sd : String) : Player :=
  { steamID := sid, name := "p", side := sd, x := 5, y := 5, z := 5, isAlive := true }

def k7 : Kill :=
  { attackerSteamID := 7, victimSteamID := 8, attackerSide := "T",
    victimSide := "CT", weapon := "AK-47" }

def f3 : Frame :=
  { tick := 0, globalFrameID := 0,
    t := { teamName := "TeamA", players := some [coachP, fieldP 1 "T", fieldP 2 "T"] },
    ct := { teamName := "TeamB", players := some [fieldP 11 "CT", fieldP 12 "CT"] } }

def r3 : GameRound :=
  { baseRound with
    tSide := { teamName := "TeamA", players := some [coachP, fieldP 1 "T", fieldP 2 "T"] },
    ctSide := { teamName := "TeamB", players := some [fieldP 11 "CT", fieldP 12 "CT"] },
    frames := some [f3],
    kills := some [k7] }

/-- Claim C3, counterexample: coach removal fires on the player with
steam id 7 at the origin; it is purged from both rosters and every
frame, yet the kill list still references steam id 7 afterwards, so not
every collection of the round is free of the removed steam id. -/
theorem C3_counterexample :
    ((r3.tSide.players.getD []).any (fun p => p.steamID == 7)) = true ∧
    noSidInRound (remove_coaches_in_origin r3) 7 = true ∧
    ((remove_coaches_in_origin r3).kills.getD []).any
      (fun k => k.attackerSteamID == 7) = true := by
  refine ⟨by decide, by decide, by decide⟩

def rw3 : GameRound :=
  { baseRound with
    tSide := { teamName := "TeamA", players := some [fieldP 21 "T"] },
    frames := some [f3] }

/-- Witness for the purge part of `C3_amended` at a concrete round. -/
theorem C3_amended_witness :
    noSidInRound (remove_player_from_round rw3 21) 21 = true :=
  C3_amended.2.2 rw3 21 (by decide)

/-! ## Side switching (`switch_player_side`, demoparser.py lines
1206-1260) -/

/-- The flip written at every event-side update site:
`"T" if side == "CT" else "CT"`.  Note it is only an involution on
`"T"`/`"CT"`; any other string goes to `"CT"`. -/
def flipTCT (s : String) : String := if s == "CT" then "T" else "CT"

/-- remove the first element satisfying the predicate (a plain
`list.remove` of an element found while iterating over a copy). -/
def removeFirstP {α : Type} (q : α → Bool) : List α → List α
  | [] => []
  | x :: xs => if q x then xs else x :: removeFirstP q xs

/-- Roster part of `switch_player_side`: scan `tSide` then `ctSide` for
the steam id, append the found entry to the other roster and remove it
from its own; stop after the first hit.  Roster entries' `side` fields
are not touched. -/
def switchRosters (sid : Int) (r : GameRound) : GameRound :=
  match (r.tSide.players.getD []).find? (fun p => p.steamID == sid) with
  | some p =>
      let newCt := some (r.ctSide.players.getD [] ++ [p])
      let newT := some (removeFirstP (fun q => q.steamID == sid) (r.tSide.players.getD []))
      { r with
        ctSide := { r.ctSide with players := newCt },
        tSide := { r.tSide with players := newT } }
  | none =>
      match (r.ctSide.players.getD []).find? (fun p => p.steamID == sid) with
      | some p =>
          let newT := some (r.tSide.players.getD [] ++ [p])
          let newCt := some (removeFirstP (fun q => q.steamID == sid) (r.ctSide.players.getD []))
          { r with
            tSide := { r.tSide with players := newT },
            ctSide := { r.ctSide with players := newCt } }
      | none => r

def switchKill (sid : Int) (k : Kill) : Kill :=
  let k1 := if k.attackerSteamID == sid
            then { k with attackerSide := flipTCT k.attackerSide } else k
  if k1.victimSteamID == sid
  then { k1 with victimSide := flipTCT k1.victimSide } else k1

def switchDamage (sid : Int) (d : Damage) : Damage :=
  let d1 := if d.attackerSteamID == sid
            then { d with attackerSide := flipTCT d.attackerSide } else d
  if d1.victimSteamID == sid
  then { d1 with victimSide := flipTCT d1.victimSide } else d1

def switchGrenade (sid : Int) (gr : Grenade) : Grenade :=
  if gr.throwerSteamID == sid
  then { gr with throwerSide := flipTCT gr.throwerSide } else gr

def switchWeaponFire (sid : Int) (w : WeaponFire) : WeaponFire :=
  if w.playerSteamID == sid
  then { w with playerSide := flipTCT w.playerSide } else w

def switchFlash (sid : Int) (fl : Flash) : Flash :=
  let f1 := if fl.attackerSteamID == sid
            then { fl with attackerSide := flipTCT fl.attackerSide } else fl
  if f1.playerSteamID == sid
  then { f1 with playerSide := flipTCT f1.playerSide } else f1

/-- Frame part of `switch_player_side`: scan the `t` list then the `ct`
list (each skipped when null), set the found player's `side` to the
other team's label, append them there and remove them here; stop after
the first hit in the frame. -/
def switchFrame (sid : Int) (f : Frame) : Frame :=
  match (f.t.players.getD []).find? (fun p => p.steamID == sid) with
  | some p =>
      let newCt := some (f.ct.players.getD [] ++ [{ p with side := "CT" }])
      let newT := some (removeFirstP (fun q => q.steamID == sid) (f.t.players.getD []))
      { f with
        ct := { f.ct with players := newCt },
        t := { f.t with players := newT } }
  | none =>
      match (f.ct.players.getD []).find? (fun p => p.steamID == sid) with
      | some p =>
          let newT := some (f.t.players.getD [] ++ [{ p with side := "T" }])
          let newCt := some (removeFirstP (fun q => q.steamID == sid) (f.ct.players.getD []))
          { f with
            t := { f.t with players := newT },
            ct := { f.ct with players := newCt } }
      | none => f

/-- `switch_player_side(game_round, switched_steamID)`.  Event and frame
lists are read with `.get(key, [])`; a null/absent list stays as it is
(nothing to iterate). -/
def switch_player_side (r : GameRound) (sid : Int) : GameRound :=
  let r1 := switchRosters sid r
  { r1 with
    kills := r1.kills.map (fun l => l.map (switchKill sid)),
    damages := r1.damages.map (fun l => l.map (switchDamage sid)),
    grenades := r1.grenades.map (fun l => l.map (switchGrenade sid)),
    weaponFires := r1.weaponFires.map (fun l => l.map (switchWeaponFire sid)),
    flashes := r1.flashes.map (fun l => l.map (switchFlash sid)),
    frames := r1.frames.map (fun l => l.map (switchFrame sid)) }

/-! ## Equality up to player-list order ("bitwise-equal modulo transient
list order" in the claim) -/

def permOptB (a b : Option (List Player)) : Bool :=
  match a, b with
  | some x, some y => decide (List.Perm x y)
  | none, none => true
  | _, _ => false

def teamEquivB (a b : TeamState) : Bool :=
  (a.teamName == b.teamName) && permOptB a.players b.players

def frameEquivB (a b : Frame) : Bool :=
  (a.tick == b.tick) && (a.globalFrameID == b.globalFrameID) &&
  teamEquivB a.t b.t && teamEquivB a.ct b.ct

def listEquivB {α : Type} (eq : α → α → Bool) : List α → List α → Bool
  | [], [] => true
  | x :: xs, y :: ys => eq x y && listEquivB eq xs ys
  | _, _ => false

def framesEquivB : Option (List Frame) → Option (List Frame) → Bool
  | none, none => true
  | some a, some b => listEquivB frameEquivB a b
  | _, _ => false

/-- rounds equal field by field, with player lists compared as multisets
(events, being untouched lists of scalars, compared exactly). -/
def roundEquivB (a b : GameRound) : Bool :=
  (a.roundNum == b.roundNum) && (a.isWarmup == b.isWarmup) &&
  (a.startTick == b.startTick) && (a.freezeTimeEndTick == b.freezeTimeEndTick) &&
  (a.endTick == b.endTick) && (a.endOfficialTick == b.endOfficialTick) &&
  (a.tScore == b.tScore) && (a.ctScore == b.ctScore) &&
  (a.endTScore == b.endTScore) && (a.endCTScore == b.endCTScore) &&
  (a.winningSide == b.winningSide) && (a.roundEndReason == b.roundEndReason) &&
  teamEquivB a.tSide b.tSide && teamEquivB a.ctSide b.ctSide &&
  framesEquivB a.frames b.frames &&
  (a.kills == b.kills) && (a.damages == b.damages) && (a.grenades == b.grenades) &&
  (a.flashes == b.flashes) && (a.weaponFires == b.weaponFires)

/-! ## Well-formedness under which the switch is an involution -/

def sideOKB (s : String) : Bool := (s == "T") || (s == "CT")

def killSafeB (sid : Int) (k : Kill) : Bool :=
  ((k.attackerSteamID != sid) || sideOKB k.attackerSide) &&
  ((k.victimSteamID != sid) || sideOKB k.victimSide)

def damageSafeB (sid : Int) (d : Damage) : Bool :=
  ((d.attackerSteamID != sid) || sideOKB d.attackerSide) &&
  ((d.victimSteamID != sid) || sideOKB d.victimSide)

def grenadeSafeB (sid : Int) (gr : Grenade) : Bool :=
  (gr.throwerSteamID != sid) || sideOKB gr.throwerSide

def weaponFireSafeB (sid : Int) (w : WeaponFire) : Bool :=
  (w.playerSteamID != sid) || sideOKB w.playerSide

def flashSafeB (sid : Int) (fl : Flash) : Bool :=
  ((fl.attackerSteamID != sid) || sideOKB fl.attackerSide) &&
  ((fl.playerSteamID != sid) || sideOKB fl.playerSide)

/-- frame well-formedness for the switched player: both player lists
present, the steam id occurs at most once in the frame, and its entries
carry the side label of the list that holds them. -/
def frameSafeB (sid : Int) (f : Frame) : Bool :=
  f.t.players.isSome && f.ct.players.isSome &&
  decide (countSid sid (f.t.players.getD []) + countSid sid (f.ct.players.getD []) ≤ 1) &&
  (f.t.players.getD []).all (fun p => (p.steamID != sid) || (p.side == "T")) &&
  (f.ct.players.getD []).all (fun p => (p.steamID != sid) || (p.side == "CT"))

/-- round well-formedness for the switched player: rosters present with
the steam id occurring at most once across both, every frame
`frameSafeB`, and every event side label of that player `"T"`/`"CT"`. -/
def switchSafeB (r : GameRound) (sid : Int) : Bool :=
  r.tSide.players.isSome && r.ctSide.players.isSome &&
  decide (countSid sid (r.tSide.players.getD []) + countSid sid (r.ctSide.players.getD []) ≤ 1) &&
  (r.frames.getD []).all (frameSafeB sid) &&
  (r.kills.getD []).all (killSafeB sid) &&
  (r.damages.getD []).all (damageSafeB sid) &&
  (r.grenades.getD []).all (grenadeSafeB sid) &&
  (r.weaponFires.getD []).all (weaponFireSafeB sid) &&
  (r.flashes.getD []).all (flashSafeB sid)

/-! ## Involutivity machinery -/

theorem flipTCT_invol (s : String) (h : sideOKB s = true) :
    flipTCT (flipTCT s) = s := by
  unfold sideOKB at h
  simp only [Bool.or_eq_true, beq_iff_eq] at h
  rcases h with h | h <;> subst h <;> rfl

theorem switchKill_invol (sid : Int) (k : Kill) (h : killSafeB sid k = true) :
    switchKill sid (switchKill sid k) = k := by
  obtain ⟨aid, vid, aside, vside, w⟩ := k
  unfold killSafeB at h
  simp only [Bool.and_eq_true, Bool.or_eq_true] at h
  obtain ⟨ha, hv⟩ := h
  by_cases hA : (aid == sid) = true <;> by_cases hV : (vid == sid) = true <;>
    simp_all [switchKill, bne, flipTCT_invol]

theorem switchDamage_invol (sid : Int) (d : Damage) (h : damageSafeB sid d = true) :
    switchDamage sid (switchDamage sid d) = d := by
  obtain ⟨aid, vid, aside, vside⟩ := d
  unfold damageSafeB at h
  simp only [Bool.and_eq_true, Bool.or_eq_true] at h
  obtain ⟨ha, hv⟩ := h
  by_cases hA : (aid == sid) = true <;> by_cases hV : (vid == sid) = true <;>
    simp_all [switchDamage, bne, flipTCT_invol]

theorem switchGrenade_invol (sid : Int) (gr : Grenade) (h : grenadeSafeB sid gr = true) :
    switchGrenade sid (switchGrenade sid gr) = gr := by
  obtain ⟨tid, tside⟩ := gr
  unfold grenadeSafeB at h
  simp only [Bool.or_eq_true] at h
  by_cases hT : (tid == sid) = true <;>
    simp_all [switchGrenade, bne, flipTCT_invol]

theorem switchWeaponFire_invol (sid : Int) (w : WeaponFire)
    (h : weaponFireSafeB sid w = true) :
    switchWeaponFire sid (switchWeaponFire sid w) = w := by
  obtain ⟨pid, pside⟩ := w
  unfold weaponFireSafeB at h
  simp only [Bool.or_eq_true] at h
  by_cases hP : (pid == sid) = true <;>
    simp_all [switchWeaponFire, bne, flipTCT_invol]

theorem switchFlash_invol (sid : Int) (fl : Flash) (h : flashSafeB sid fl = true) :
    switchFlash sid (switchFlash sid fl) = fl := by
  obtain ⟨aid, pid, aside, pside⟩ := fl
  unfold flashSafeB at h
  simp only [Bool.and_eq_true, Bool.or_eq_true] at h
  obtain ⟨ha, hp⟩ := h
  by_cases hA : (aid == sid) = true <;> by_cases hP : (pid == sid) = true <;>
    simp_all [switchFlash, bne, flipTCT_invol]

theorem map_double_id {α : Type} (g : α → α) (l : List α)
    (h : ∀ x ∈ l, g (g x) = x) : (l.map g).map g = l := by
  induction l with
  | nil => rfl
  | cons x xs ih =>
      simp only [List.map_cons, List.cons.injEq]
      exact ⟨h x (by simp), ih (fun z hz => h z (by simp [hz]))⟩

theorem removeFirstP_append_of_all {α : Type} (q : α → Bool) :
    ∀ l1 l2 : List α, (∀ x ∈ l1, q x = false) →
      removeFirstP q (l1 ++ l2) = l1 ++ removeFirstP q l2
  | [], _, _ => rfl
  | x :: xs, l2, h => by
      rw [List.cons_append, removeFirstP, h x (by simp)]
      show x :: removeFirstP q (xs ++ l2) = x :: (xs ++ removeFirstP q l2)
      rw [removeFirstP_append_of_all q xs l2 (fun z hz => h z (by simp [hz]))]

theorem find?_eq_none_of_all {α : Type} (q : α → Bool) (l : List α)
    (h : ∀ x ∈ l, q x = false) : l.find? q = none :=
  List.find?_eq_none.mpr (fun x hx => by simp [h x hx])

theorem perm_removeFirstP {α : Type} (q : α → Bool) :
    ∀ (l : List α) (a : α), l.find? q = some a →
      List.Perm (removeFirstP q l ++ [a]) l
  | [], a, h => by simp at h
  | x :: xs, a, h => by
      by_cases hx : q x
      · rw [List.find?_cons_of_pos _ hx, Option.some.injEq] at h
        subst h
        rw [removeFirstP, if_pos hx]
        exact List.perm_append_singleton x xs
      · have hx' : q x = false := by simpa using hx
        rw [List.find?_cons_of_neg _ hx] at h
        rw [removeFirstP, if_neg hx, List.cons_append]
        exact List.Perm.cons x (perm_removeFirstP q xs a h)

theorem find?_after_removeFirstP {α : Type} (q : α → Bool) :
    ∀ l : List α, l.countP q ≤ 1 → (removeFirstP q l).find? q = none
  | [], _ => rfl
  | x :: xs, h => by
      by_cases hx : q x
      · rw [removeFirstP, if_pos hx]
        have hc : xs.countP q = 0 := by
          rw [List.countP_cons] at h
          simp only [hx, if_pos] at h
          omega
        exact find?_eq_none_of_all q xs (fun z hz => by
          have := List.countP_eq_zero.mp hc z hz
          simpa using this)
      · have hx' : q x = false := by simpa using hx
        rw [removeFirstP, if_neg hx, List.find?_cons_of_neg _ hx]
        apply find?_after_removeFirstP q xs
        rw [List.countP_cons] at h
        simp only [hx', Bool.false_eq_true, if_false] at h
        omega

theorem permOptB_refl (a : Option (List Player)) : permOptB a a = true := by
  cases a with
  | none => rfl
  | some x => exact decide_eq_true (List.Perm.refl x)

theorem teamEquivB_refl (a : TeamState) : teamEquivB a a = true := by
  unfold teamEquivB
  rw [permOptB_refl]
  simp

theorem frameEquivB_refl (a : Frame) : frameEquivB a a = true := by
  unfold frameEquivB
  rw [teamEquivB_refl, teamEquivB_refl]
  simp

theorem listEquivB_double {α : Type} (eq : α → α → Bool) (g : α → α)
    (l : List α) (h : ∀ x ∈ l, eq (g (g x)) x = true) :
    listEquivB eq ((l.map g).map g) l = true := by
  induction l with
  | nil => rfl
  | cons x xs ih =>
      simp only [List.map_cons, listEquivB, Bool.and_eq_true]
      exact ⟨h x (by simp), ih (fun z hz => h z (by simp [hz]))⟩

/-! ## Computation lemmas for `switchRosters` / `switchFrame` -/

theorem switchRosters_t_found (sid : Int) (r : GameRound) (p : Player)
    (h : (r.tSide.players.getD []).find? (fun q => q.steamID == sid) = some p) :
    switchRosters sid r =
      { r with
        ctSide := { r.ctSide with players := some (r.ctSide.players.getD [] ++ [p]) },
        tSide := { r.tSide with players := some (removeFirstP (fun q => q.steamID == sid) (r.tSide.players.getD [])) } } := by
  unfold switchRosters
  rw [h]

theorem switchRosters_ct_found (sid : Int) (r : GameRound) (p : Player)
    (ht : (r.tSide.players.getD []).find? (fun q => q.steamID == sid) = none)
    (h : (r.ctSide.players.getD []).find? (fun q => q.steamID == sid) = some p) :
    switchRosters sid r =
      { r with
        tSide := { r.tSide with players := some (r.tSide.players.getD [] ++ [p]) },
        ctSide := { r.ctSide with players := some (removeFirstP (fun q => q.steamID == sid) (r.ctSide.players.getD [])) } } := by
  unfold switchRosters
  rw [ht, h]

theorem switchRosters_none (sid : Int) (r : GameRound)
    (ht : (r.tSide.players.getD []).find? (fun q => q.steamID == sid) = none)
    (hc : (r.ctSide.players.getD []).find? (fun q => q.steamID == sid) = none) :
    switchRosters sid r = r := by
  unfold switchRosters
  rw [ht, hc]

theorem switchFrame_t_found (sid : Int) (f : Frame) (p : Player)
    (h : (f.t.players.getD []).find? (fun q => q.steamID == sid) = some p) :
    switchFrame sid f =
      { f with
        ct := { f.ct with players := some (f.ct.players.getD [] ++ [{ p with side := "CT" }]) },
        t := { f.t with players := some (removeFirstP (fun q => q.steamID == sid) (f.t.players.getD [])) } } := by
  unfold switchFrame
  rw [h]

theorem switchFrame_ct_found (sid : Int) (f : Frame) (p : Player)
    (ht : (f.t.players.getD []).find? (fun q => q.steamID == sid) = none)
    (h : (f.ct.players.getD []).find? (fun q => q.steamID == sid) = some p) :
    switchFrame sid f =
      { f with
        t := { f.t with players := some (f.t.players.getD [] ++ [{ p with side := "T" }]) },
        ct := { f.ct with players := some (removeFirstP (fun q => q.steamID == sid) (f.ct.players.getD [])) } } := by
  unfold switchFrame
  rw [ht, h]

theorem switchFrame_none (sid : Int) (f : Frame)
    (ht : (f.t.players.getD []).find? (fun q => q.steamID == sid) = none)
    (hc : (f.ct.players.getD []).find? (fun q => q.steamID == sid) = none) :
    switchFrame sid f = f := by
  unfold switchFrame
  rw [ht, hc]

theorem find?_append_singleton {α : Type} (q : α → Bool) (l : List α) (x : α)
    (hall : ∀ z ∈ l, q z = false) (hx : q x = true) :
    (l ++ [x]).find? q = some x := by
  have h := find?_append_cases q l [x]
  rw [find?_eq_none_of_all q l hall] at h
  rw [h]
  exact List.find?_cons_of_pos _ hx

theorem removeFirstP_append_singleton {α : Type} (q : α → Bool) (l : List α) (x : α)
    (hall : ∀ z ∈ l, q z = false) (hx : q x = true) :
    removeFirstP q (l ++ [x]) = l := by
  rw [removeFirstP_append_of_all q l [x] hall]
  simp [removeFirstP, hx]

theorem teamEquivB_intro (a b : TeamState) (h1 : a.teamName = b.teamName)
    (h2 : permOptB a.players b.players = true) : teamEquivB a b = true := by
  unfold teamEquivB
  rw [h1, h2]
  simp

theorem frameEquivB_intro (a b : Frame)
    (h1 : a.tick = b.tick) (h2 : a.globalFrameID = b.globalFrameID)
    (h3 : teamEquivB a.t b.t = true) (h4 : teamEquivB a.ct b.ct = true) :
    frameEquivB a b = true := by
  unfold frameEquivB
  rw [h1, h2, h3, h4]
  simp

theorem switchRosters_depends (sid : Int) (a b : GameRound)
    (ht : a.tSide = b.tSide) (hc : a.ctSide = b.ctSide) :
    (switchRosters sid a).tSide = (switchRosters sid b).tSide ∧
    (switchRosters sid a).ctSide = (switchRosters sid b).ctSide := by
  unfold switchRosters
  rw [ht, hc]
  cases hft : (b.tSide.players.getD []).find? (fun p => p.steamID == sid) with
  | some p => exact ⟨rfl, rfl⟩
  | none =>
      cases hfc : (b.ctSide.players.getD []).find? (fun p => p.steamID == sid) with
      | some p => exact ⟨rfl, rfl⟩
      | none => exact ⟨ht, hc⟩

theorem switchRosters_shape (sid : Int) (r : GameRound) :
    ∃ tS cS, switchRosters sid r = { r with tSide := tS, ctSide := cS } := by
  unfold switchRosters
  cases hft : (r.tSide.players.getD []).find? (fun p => p.steamID == sid) with
  | some p => exact ⟨_, _, rfl⟩
  | none =>
      cases hfc : (r.ctSide.players.getD []).find? (fun p => p.steamID == sid) with
      | some p => exact ⟨_, _, rfl⟩
      | none => exact ⟨r.tSide, r.ctSide, rfl⟩

theorem switch_shape (sid : Int) (r : GameRound) :
    switch_player_side r sid =
      { r with
        tSide := (switchRosters sid r).tSide,
        ctSide := (switchRosters sid r).ctSide,
        kills := r.kills.map (fun l => l.map (switchKill sid)),
        damages := r.damages.map (fun l => l.map (switchDamage sid)),
        grenades := r.grenades.map (fun l => l.map (switchGrenade sid)),
        weaponFires := r.weaponFires.map (fun l => l.map (switchWeaponFire sid)),
        flashes := r.flashes.map (fun l => l.map (switchFlash sid)),
        frames := r.frames.map (fun l => l.map (switchFrame sid)) } := by
  obtain ⟨tS, cS, hsh⟩ := switchRosters_shape sid r
  unfold switch_player_side
  rw [hsh]

theorem switchRosters_restore (sid : Int) (r : GameRound)
    (hts : r.tSide.players.isSome = true) (hcs : r.ctSide.players.isSome = true)
    (hcnt : countSid sid (r.tSide.players.getD []) + countSid sid (r.ctSide.players.getD []) ≤ 1) :
    teamEquivB (switchRosters sid (switchRosters sid r)).tSide r.tSide = true ∧
    teamEquivB (switchRosters sid (switchRosters sid r)).ctSide r.ctSide = true := by
  unfold countSid at hcnt
  obtain ⟨tl, htl⟩ := Option.isSome_iff_exists.mp hts
  obtain ⟨cl, hcl⟩ := Option.isSome_iff_exists.mp hcs
  have hgdt : r.tSide.players.getD [] = tl := by rw [htl]; rfl
  have hgdc : r.ctSide.players.getD [] = cl := by rw [hcl]; rfl
  rw [hgdt, hgdc] at hcnt
  cases hft : (r.tSide.players.getD []).find? (fun q => q.steamID == sid) with
  | some p =>
      have hft' : tl.find? (fun q => q.steamID == sid) = some p := by
        rw [← hgdt]; exact hft
      have hqp : (p.steamID == sid) = true := by
        have := List.find?_some hft'
        simpa using this
      have hmem : p ∈ tl := List.mem_of_find?_eq_some hft'
      have hpos : 0 < tl.countP (fun q => q.steamID == sid) :=
        List.countP_pos_iff.mpr ⟨p, hmem, hqp⟩
      have hc0 : cl.countP (fun q => q.steamID == sid) = 0 := by omega
      have hclall : ∀ z ∈ cl, (z.steamID == sid) = false := fun z hz => by
        have := List.countP_eq_zero.mp hc0 z hz
        simpa using this
      rw [switchRosters_t_found sid r p hft]
      set r1 : GameRound :=
        { r with
          ctSide := { r.ctSide with players := some (r.ctSide.players.getD [] ++ [p]) },
          tSide := { r.tSide with players := some (removeFirstP (fun q => q.steamID == sid) (r.tSide.players.getD [])) } }
        with hr1
      have e1 : r1.tSide.players =
          some (removeFirstP (fun q => q.steamID == sid) (r.tSide.players.getD [])) := by
        rw [hr1]
      have e2 : r1.ctSide.players = some (r.ctSide.players.getD [] ++ [p]) := by
        rw [hr1]
      have e3 : r1.tSide.teamName = r.tSide.teamName := by rw [hr1]
      have e4 : r1.ctSide.teamName = r.ctSide.teamName := by rw [hr1]
      have h1t : (r1.tSide.players.getD []).find? (fun q => q.steamID == sid) = none := by
        rw [e1]
        show (removeFirstP (fun q => q.steamID == sid) (r.tSide.players.getD [])).find?
          (fun q => q.steamID == sid) = none
        rw [hgdt]
        exact find?_after_removeFirstP _ tl (by omega)
      have h1c : (r1.ctSide.players.getD []).find? (fun q => q.steamID == sid) = some p := by
        rw [e2]
        show (r.ctSide.players.getD [] ++ [p]).find? (fun q => q.steamID == sid) = some p
        rw [hgdc]
        exact find?_append_singleton _ cl p hclall hqp
      rw [switchRosters_ct_found sid r1 p h1t h1c]
      constructor
      · apply teamEquivB_intro
        · exact e3
        · show permOptB (some (r1.tSide.players.getD [] ++ [p])) r.tSide.players = true
          rw [e1]
          show permOptB
            (some (removeFirstP (fun q => q.steamID == sid) (r.tSide.players.getD []) ++ [p]))
            r.tSide.players = true
          rw [hgdt, htl]
          exact decide_eq_true (perm_removeFirstP _ tl p hft')
      · apply teamEquivB_intro
        · exact e4
        · show permOptB
            (some (removeFirstP (fun q => q.steamID == sid) (r1.ctSide.players.getD [])))
            r.ctSide.players = true
          rw [e2]
          show permOptB
            (some (removeFirstP (fun q => q.steamID == sid) (r.ctSide.players.getD [] ++ [p])))
            r.ctSide.players = true
          rw [hgdc, hcl, removeFirstP_append_singleton _ cl p hclall hqp]
          exact permOptB_refl (some cl)
  | none =>
      cases hfc : (r.ctSide.players.getD []).find? (fun q => q.steamID == sid) with
      | some p =>
          have hfc' : cl.find? (fun q => q.steamID == sid) = some p := by
            rw [← hgdc]; exact hfc
          have hqp : (p.steamID == sid) = true := by
            have := List.find?_some hfc'
            simpa using this
          have hmem : p ∈ cl := List.mem_of_find?_eq_some hfc'
          have hpos : 0 < cl.countP (fun q => q.steamID == sid) :=
            List.countP_pos_iff.mpr ⟨p, hmem, hqp⟩
          have hc0 : tl.countP (fun q => q.steamID == sid) = 0 := by omega
          have htlall : ∀ z ∈ tl, (z.steamID == sid) = false := fun z hz => by
            have := List.countP_eq_zero.mp hc0 z hz
            simpa using this
          rw [switchRosters_ct_found sid r p hft hfc]
          set r1 : GameRound :=
            { r with
              tSide := { r.tSide with players := some (r.tSide.players.getD [] ++ [p]) },
              ctSide := { r.ctSide with players := some (removeFirstP (fun q => q.steamID == sid) (r.ctSide.players.getD [])) } }
            with hr1
          have e1 : r1.tSide.players = some (r.tSide.players.getD [] ++ [p]) := by
            rw [hr1]
          have e2 : r1.ctSide.players =
              some (removeFirstP (fun q => q.steamID == sid) (r.ctSide.players.getD [])) := by
            rw [hr1]
          have e3 : r1.tSide.teamName = r.tSide.teamName := by rw [hr1]
          have e4 : r1.ctSide.teamName = r.ctSide.teamName := by rw [hr1]
          have h1t : (r1.tSide.players.getD []).find? (fun q => q.steamID == sid) = some p := by
            rw [e1]
            show (r.tSide.players.getD [] ++ [p]).find? (fun q => q.steamID == sid) = some p
            rw [hgdt]
            exact find?_append_singleton _ tl p htlall hqp
          rw [switchRosters_t_found sid r1 p h1t]
          constructor
          · apply teamEquivB_intro
            · exact e3
            · show permOptB
                (some (removeFirstP (fun q => q.steamID == sid) (r1.tSide.players.getD [])))
                r.tSide.players = true
              rw [e1]
              show permOptB
                (some (removeFirstP (fun q => q.steamID == sid) (r.tSide.players.getD [] ++ [p])))
                r.tSide.players = true
              rw [hgdt, htl, removeFirstP_append_singleton _ tl p htlall hqp]
              exact permOptB_refl (some tl)
          · apply teamEquivB_intro
            · exact e4
            · show permOptB (some (r1.ctSide.players.getD [] ++ [p])) r.ctSide.players = true
              rw [e2]
              show permOptB
                (some (removeFirstP (fun q => q.steamID == sid) (r.ctSide.players.getD []) ++ [p]))
                r.ctSide.players = true
              rw [hgdc, hcl]
              exact decide_eq_true (perm_removeFirstP _ cl p hfc')
      | none =>
          rw [switchRosters_none sid r hft hfc, switchRosters_none sid r hft hfc]
          exact ⟨teamEquivB_refl _, teamEquivB_refl _⟩

theorem switchFrame_restore (sid : Int) (f : Frame) (h : frameSafeB sid f = true) :
    frameEquivB (switchFrame sid (switchFrame sid f)) f = true := by
  unfold frameSafeB at h
  simp only [Bool.and_eq_true] at h
  obtain ⟨⟨⟨⟨hts, hcs⟩, hcnt⟩, htall⟩, hcall⟩ := h
  have hcnt' := of_decide_eq_true hcnt
  unfold countSid at hcnt'
  obtain ⟨tl, htl⟩ := Option.isSome_iff_exists.mp hts
  obtain ⟨cl, hcl⟩ := Option.isSome_iff_exists.mp hcs
  have hgdt : f.t.players.getD [] = tl := by rw [htl]; rfl
  have hgdc : f.ct.players.getD [] = cl := by rw [hcl]; rfl
  rw [hgdt, hgdc] at hcnt'
  cases hft : (f.t.players.getD []).find? (fun q => q.steamID == sid) with
  | some p =>
      have hft' : tl.find? (fun q => q.steamID == sid) = some p := by
        rw [← hgdt]; exact hft
      have hqp : (p.steamID == sid) = true := by
        have := List.find?_some hft'
        simpa using this
      have hmem : p ∈ tl := List.mem_of_find?_eq_some hft'
      have hside : p.side = "T" := by
        have hh := List.all_eq_true.mp htall p (by rw [hgdt]; exact hmem)
        simp only [Bool.or_eq_true, beq_iff_eq, bne_iff_ne, ne_eq] at hh
        simp only [beq_iff_eq] at hqp
        tauto
      have hpos : 0 < tl.countP (fun q => q.steamID == sid) :=
        List.countP_pos_iff.mpr ⟨p, hmem, hqp⟩
      have hc0 : cl.countP (fun q => q.steamID == sid) = 0 := by omega
      have hclall : ∀ z ∈ cl, (z.steamID == sid) = false := fun z hz => by
        have := List.countP_eq_zero.mp hc0 z hz
        simpa using this
      rw [switchFrame_t_found sid f p hft]
      set f1 : Frame :=
        { f with
          ct := { f.ct with players := some (f.ct.players.getD [] ++ [{ p with side := "CT" }]) },
          t := { f.t with players := some (removeFirstP (fun q => q.steamID == sid) (f.t.players.getD [])) } }
        with hf1
      have e1 : f1.t.players =
          some (removeFirstP (fun q => q.steamID == sid) (f.t.players.getD [])) := by
        rw [hf1]
      have e2 : f1.ct.players = some (f.ct.players.getD [] ++ [{ p with side := "CT" }]) := by
        rw [hf1]
      have h1t : (f1.t.players.getD []).find? (fun q => q.steamID == sid) = none := by
        rw [e1]
        show (removeFirstP (fun q => q.steamID == sid) (f.t.players.getD [])).find?
          (fun q => q.steamID == sid) = none
        rw [hgdt]
        exact find?_after_removeFirstP _ tl (by omega)
      have h1c : (f1.ct.players.getD []).find? (fun q => q.steamID == sid)
          = some { p with side := "CT" } := by
        rw [e2]
        show (f.ct.players.getD [] ++ [{ p with side := "CT" }]).find?
          (fun q => q.steamID == sid) = some { p with side := "CT" }
        rw [hgdc]
        exact find?_append_singleton _ cl { p with side := "CT" } hclall hqp
      rw [switchFrame_ct_found sid f1 { p with side := "CT" } h1t h1c]
      have hback : ({ { p with side := "CT" } with side := "T" } : Player) = p := by
        rw [← hside]
      apply frameEquivB_intro
      · rfl
      · rfl
      · apply teamEquivB_intro
        · show f1.t.teamName = f.t.teamName
          rw [hf1]
        · show permOptB (some (f1.t.players.getD [] ++ [{ { p with side := "CT" } with side := "T" }]))
            f.t.players = true
          rw [e1, hback]
          show permOptB
            (some (removeFirstP (fun q => q.steamID == sid) (f.t.players.getD []) ++ [p]))
            f.t.players = true
          rw [hgdt, htl]
          exact decide_eq_true (perm_removeFirstP _ tl p hft')
      · apply teamEquivB_intro
        · show f1.ct.teamName = f.ct.teamName
          rw [hf1]
        · show permOptB
            (some (removeFirstP (fun q => q.steamID == sid) (f1.ct.players.getD [])))
            f.ct.players = true
          rw [e2]
          show permOptB
            (some (removeFirstP (fun q => q.steamID == sid)
              (f.ct.players.getD [] ++ [{ p with side := "CT" }])))
            f.ct.players = true
          rw [hgdc, hcl,
            removeFirstP_append_singleton _ cl { p with side := "CT" } hclall hqp]
          exact permOptB_refl (some cl)
  | none =>
      cases hfc : (f.ct.players.getD []).find? (fun q => q.steamID == sid) with
      | some p =>
          have hfc' : cl.find? (fun q => q.steamID == sid) = some p := by
            rw [← hgdc]; exact hfc
          have hqp : (p.steamID == sid) = true := by
            have := List.find?_some hfc'
            simpa using this
          have hmem : p ∈ cl := List.mem_of_find?_eq_some hfc'
          have hside : p.side = "CT" := by
            have hh := List.all_eq_true.mp hcall p (by rw [hgdc]; exact hmem)
            simp only [Bool.or_eq_true, beq_iff_eq, bne_iff_ne, ne_eq] at hh
            simp only [beq_iff_eq] at hqp
            tauto
          have hpos : 0 < cl.countP (fun q => q.steamID == sid) :=
            List.countP_pos_iff.mpr ⟨p, hmem, hqp⟩
          have hc0 : tl.countP (fun q => q.steamID == sid) = 0 := by omega
          have htlall : ∀ z ∈ tl, (z.steamID == sid) = false := fun z hz => by
            have := List.countP_eq_zero.mp hc0 z hz
            simpa using this
          rw [switchFrame_ct_found sid f p hft hfc]
          set f1 : Frame :=
            { f with
              t := { f.t with players := some (f.t.players.getD [] ++ [{ p with side := "T" }]) },
              ct := { f.ct with players := some (removeFirstP (fun q => q.steamID == sid) (f.ct.players.getD [])) } }
            with hf1
          have e1 : f1.t.players = some (f.t.players.getD [] ++ [{ p with side := "T" }]) := by
            rw [hf1]
          have e2 : f1.ct.players =
              some (removeFirstP (fun q => q.steamID == sid) (f.ct.players.getD [])) := by
            rw [hf1]
          have h1t : (f1.t.players.getD []).find? (fun q => q.steamID == sid)
              = some { p with side := "T" } := by
            rw [e1]
            show (f.t.players.getD [] ++ [{ p with side := "T" }]).find?
              (fun q => q.steamID == sid) = some { p with side := "T" }
            rw [hgdt]
            exact find?_append_singleton _ tl { p with side := "T" } htlall hqp
          rw [switchFrame_t_found sid f1 { p with side := "T" } h1t]
          have hback : ({ { p with side := "T" } with side := "CT" } : Player) = p := by
            rw [← hside]
          apply frameEquivB_intro
          · rfl
          · rfl
          · apply teamEquivB_intro
            · show f1.t.teamName = f.t.teamName
              rw [hf1]
            · show permOptB
                (some (removeFirstP (fun q => q.steamID == sid) (f1.t.players.getD [])))
                f.t.players = true
              rw [e1]
              show permOptB
                (some (removeFirstP (fun q => q.steamID == sid)
                  (f.t.players.getD [] ++ [{ p with side := "T" }])))
                f.t.players = true
              rw [hgdt, htl,
                removeFirstP_append_singleton _ tl { p with side := "T" } htlall hqp]
              exact permOptB_refl (some tl)
          · apply teamEquivB_intro
            · show f1.ct.teamName = f.ct.teamName
              rw [hf1]
            · show permOptB
                (some (f1.ct.players.getD [] ++ [{ { p with side := "T" } with side := "CT" }]))
                f.ct.players = true
              rw [e2, hback]
              show permOptB
                (some (removeFirstP (fun q => q.steamID == sid) (f.ct.players.getD []) ++ [p]))
                f.ct.players = true
              rw [hgdc, hcl]
              exact decide_eq_true (perm_removeFirstP _ cl p hfc')
      | none =>
          rw [switchFrame_none sid f hft hfc, switchFrame_none sid f hft hfc]
          exact frameEquivB_refl f

theorem roundEquivB_intro (a b : GameRound)
    (h1 : a.roundNum = b.roundNum) (h2 : a.isWarmup = b.isWarmup)
    (h3 : a.startTick = b.startTick) (h4 : a.freezeTimeEndTick = b.freezeTimeEndTick)
    (h5 : a.endTick = b.endTick) (h6 : a.endOfficialTick = b.endOfficialTick)
    (h7 : a.tScore = b.tScore) (h8 : a.ctScore = b.ctScore)
    (h9 : a.endTScore = b.endTScore) (h10 : a.endCTScore = b.endCTScore)
    (h11 : a.winningSide = b.winningSide) (h12 : a.roundEndReason = b.roundEndReason)
    (h13 : teamEquivB a.tSide b.tSide = true) (h14 : teamEquivB a.ctSide b.ctSide = true)
    (h15 : framesEquivB a.frames b.frames = true)
    (h16 : a.kills = b.kills) (h17 : a.damages = b.damages) (h18 : a.grenades = b.grenades)
    (h19 : a.flashes = b.flashes) (h20 : a.weaponFires = b.weaponFires) :
    roundEquivB a b = true := by
  unfold roundEquivB
  rw [h1, h2, h3, h4, h5, h6, h7, h8, h9, h10, h11, h12, h13, h14, h15,
    h16, h17, h18, h19, h20]
  simp

/-- Claim C4 as amended: for a round that is well-formed for the given
steam id (`switchSafeB`: rosters and frame player lists present, the id
occurring at most once across the rosters and at most once per frame,
frame entries labelled like the list holding them, and the id's event
side labels all `"T"`/`"CT"`), applying `switch_player_side` twice
yields the original round up to the order of the player lists
(`roundEquivB`).  The counterexample shows the involution fails without
this well-formedness. -/
theorem C4_amended (r : GameRound) (sid : Int) (h : switchSafeB r sid = true) :
    roundEquivB (switch_player_side (switch_player_side r sid) sid) r = true := by
  unfold switchSafeB at h
  simp only [Bool.and_eq_true] at h
  obtain ⟨⟨⟨⟨⟨⟨⟨⟨hts, hcs⟩, hcnt⟩, hfr⟩, hk⟩, hd⟩, hg⟩, hw⟩, hf⟩ := h
  have hs1 := switch_shape sid r
  have hs2 := switch_shape sid (switch_player_side r sid)
  have hdep := switchRosters_depends sid (switch_player_side r sid) (switchRosters sid r)
    (by rw [hs1]) (by rw [hs1])
  have hrest := switchRosters_restore sid r hts hcs (of_decide_eq_true hcnt)
  apply roundEquivB_intro
  · rw [hs2, hs1]
  · rw [hs2, hs1]
  · rw [hs2, hs1]
  · rw [hs2, hs1]
  · rw [hs2, hs1]
  · rw [hs2, hs1]
  · rw [hs2, hs1]
  · rw [hs2, hs1]
  · rw [hs2, hs1]
  · rw [hs2, hs1]
  · rw [hs2, hs1]
  · rw [hs2, hs1]
  · have hproj : (switch_player_side (switch_player_side r sid) sid).tSide
        = (switchRosters sid (switch_player_side r sid)).tSide := by rw [hs2]
    rw [hproj, hdep.1]
    exact hrest.1
  · have hproj : (switch_player_side (switch_player_side r sid) sid).ctSide
        = (switchRosters sid (switch_player_side r sid)).ctSide := by rw [hs2]
    rw [hproj, hdep.2]
    exact hrest.2
  · have hproj : (switch_player_side (switch_player_side r sid) sid).frames
        = (r.frames.map (fun l => l.map (switchFrame sid))).map
            (fun l => l.map (switchFrame sid)) := by rw [hs2, hs1]
    rw [hproj]
    cases hfe : r.frames with
    | none => rfl
    | some fs =>
        show listEquivB frameEquivB ((fs.map (switchFrame sid)).map (switchFrame sid)) fs = true
        apply listEquivB_double
        intro x hx
        apply switchFrame_restore
        exact List.all_eq_true.mp hfr x (by rw [hfe]; exact hx)
  · have hproj : (switch_player_side (switch_player_side r sid) sid).kills
        = (r.kills.map (fun l => l.map (switchKill sid))).map
            (fun l => l.map (switchKill sid)) := by rw [hs2, hs1]
    rw [hproj]
    cases he : r.kills with
    | none => rfl
    | some ks =>
        show some ((ks.map (switchKill sid)).map (switchKill sid)) = some ks
        rw [map_double_id (switchKill sid) ks (fun x hx =>
          switchKill_invol sid x (List.all_eq_true.mp hk x (by rw [he]; exact hx)))]
  · have hproj : (switch_player_side (switch_player_side r sid) sid).damages
        = (r.damages.map (fun l => l.map (switchDamage sid))).map
            (fun l => l.map (switchDamage sid)) := by rw [hs2, hs1]
    rw [hproj]
    cases he : r.damages with
    | none => rfl
    | some ds =>
        show some ((ds.map (switchDamage sid)).map (switchDamage sid)) = some ds
        rw [map_double_id (switchDamage sid) ds (fun x hx =>
          switchDamage_invol sid x (List.all_eq_true.mp hd x (by rw [he]; exact hx)))]
  · have hproj : (switch_player_side (switch_player_side r sid) sid).grenades
        = (r.grenades.map (fun l => l.map (switchGrenade sid))).map
            (fun l => l.map (switchGrenade sid)) := by rw [hs2, hs1]
    rw [hproj]
    cases he : r.grenades with
    | none => rfl
    | some gs =>
        show some ((gs.map (switchGrenade sid)).map (switchGrenade sid)) = some gs
        rw [map_double_id (switchGrenade sid) gs (fun x hx =>
          switchGrenade_invol sid x (List.all_eq_true.mp hg x (by rw [he]; exact hx)))]
  · have hproj : (switch_player_side (switch_player_side r sid) sid).flashes
        = (r.flashes.map (fun l => l.map (switchFlash sid))).map
            (fun l => l.map (switchFlash sid)) := by rw [hs2, hs1]
    rw [hproj]
    cases he : r.flashes with
    | none => rfl
    | some fs =>
        show some ((fs.map (switchFlash sid)).map (switchFlash sid)) = some fs
        rw [map_double_id (switchFlash sid) fs (fun x hx =>
          switchFlash_invol sid x (List.all_eq_true.mp hf x (by rw [he]; exact hx)))]
  · have hproj : (switch_player_side (switch_player_side r sid) sid).weaponFires
        = (r.weaponFires.map (fun l => l.map (switchWeaponFire sid))).map
            (fun l => l.map (switchWeaponFire sid)) := by rw [hs2, hs1]
    rw [hproj]
    cases he : r.weaponFires with
    | none => rfl
    | some ws =>
        show some ((ws.map (switchWeaponFire sid)).map (switchWeaponFire sid)) = some ws
        rw [map_double_id (switchWeaponFire sid) ws (fun x hx =>
          switchWeaponFire_invol sid x (List.all_eq_true.mp hw x (by rw [he]; exact hx)))]

def pBad : Player :=
  { steamID := 5, name := "b", side := "T", x := 2, y := 2, z := 2, isAlive := true }

def kBad : Kill :=
  { attackerSteamID := 5, victimSteamID := 6, attackerSide := "SPEC",
    victimSide := "CT", weapon := "AK-47" }

def f4 : Frame :=
  { tick := 0, globalFrameID := 0,
    t := { teamName := "TeamA", players := some [] },
    ct := { teamName := "TeamB", players := some [pBad] } }

def r4 : GameRound :=
  { baseRound with
    ctSide := { teamName := "TeamB", players := some [pBad] },
    frames := some [f4],
    kills := some [kBad] }

/-- Claim C4, counterexample: for the round `r4`, whose frame lists the
player (steam id 5) in the `ct` list but with side label `"T"`, and
whose kill carries the side label `"SPEC"`, applying the switch twice
does not restore the round even modulo list order: the frame entry ends
with side `"CT"` where it started with `"T"`, and the kill's attacker
side ends as `"T"` where it started as `"SPEC"`. -/
theorem C4_counterexample :
    roundEquivB (switch_player_side (switch_player_side r4 5) 5) r4 = false ∧
    ((switch_player_side (switch_player_side r4 5) 5).kills.getD []).map
      (fun k => k.attackerSide) = ["T"] ∧
    (r4.kills.getD []).map (fun k => k.attackerSide) = ["SPEC"] ∧
    ((switch_player_side (switch_player_side r4 5) 5).frames.getD []).map
      (fun f => (f.ct.players.getD []).map (fun p => p.side)) = [["CT"]] ∧
    (r4.frames.getD []).map
      (fun f => (f.ct.players.getD []).map (fun p => p.side)) = [["T"]] := by
  refine ⟨by decide, by decide, by decide, by decide, by decide⟩

def pGood : Player :=
  { steamID := 31, name := "g", side := "CT", x := 3, y := 3, z := 3, isAlive := true }

def kGood : Kill :=
  { attackerSteamID := 31, victimSteamID := 6, attackerSide := "CT",
    victimSide := "T", weapon := "AK-47" }

def fGood : Frame :=
  { tick := 0, globalFrameID := 0,
    t := { teamName := "TeamA", players := some [] },
    ct := { teamName := "TeamB", players := some [pGood] } }

def rGood : GameRound :=
  { baseRound with
    ctSide := { teamName := "TeamB", players := some [pGood] },
    frames := some [fGood],
    kills := some [kGood] }

/-- Witness for `C4_amended` at a concrete well-formed round. -/
theorem C4_amended_witness :
    roundEquivB (switch_player_side (switch_player_side rGood 31) 31) rGood = true :=
  C4_amended rGood 31 (by decide)

/-! ## `remove_excess_players` (demoparser.py lines 1281-1391) and its
helpers `get_player_side` (lines 1262-1279) -/

/-- `get_player_side`: on seven named maps the side is inferred from one
coordinate's sign; elsewhere the reported side is trusted. -/
def get_player_side (p : Player) (mapName : String) : String :=
  if mapName == "de_ancient" then (if p.y < 0 then "T" else "CT")
  else if mapName == "de_anubis" then (if p.y < 0 then "T" else "CT")
  else if mapName == "de_inferno" then (if p.x < 0 then "T" else "CT")
  else if mapName == "de_mirage" then (if p.x > 0 then "T" else "CT")
  else if mapName == "de_nuke" then (if p.x < 0 then "T" else "CT")
  else if mapName == "de_overpass" then (if p.y < 0 then "T" else "CT")
  else if mapName == "de_vertigo" then (if p.y < 0 then "T" else "CT")
  else p.side

/-- the "fix for the case when zero players on other side": missing or
null player lists are replaced by empty lists before any other step. -/
def repairTeam (t : TeamState) : TeamState :=
  { t with players := some (t.players.getD []) }

def repairFrame (f : Frame) : Frame :=
  { f with t := repairTeam f.t, ct := repairTeam f.ct }

def repairRound (r : GameRound) : GameRound :=
  { r with
    tSide := repairTeam r.tSide,
    ctSide := repairTeam r.ctSide,
    frames := r.frames.map (fun fs => fs.map repairFrame) }

def frameT (f : Frame) : TeamState := f.t

def frameCT (f : Frame) : TeamState := f.ct

/-- length of the first frame's player list on one side — the live
`player_lists` lengths the source re-reads after each mutation. -/
def firstSideLen (r : GameRound) (sel : Frame → TeamState) : Nat :=
  match (r.frames.getD []).head? with
  | some f => ((sel f).players.getD []).length
  | none => 0

/-- determinisation of the Python `set` of steam ids to switch, in
first-occurrence scan order (first frame, t side then ct side). -/
def dedupKeepFirst (l : List Int) : List Int :=
  l.foldl (fun acc x => if acc.contains x then acc else acc ++ [x]) []

def switchedPlayers (mapName : String) (f0 : Frame) : List Int :=
  dedupKeepFirst
    (((f0.t.players.getD []) ++ (f0.ct.players.getD [])).filterMap
      (fun p => if get_player_side p mapName != p.side then some p.steamID else none))

/-- one of the three `while len(player_lists[...]) > 5 and loop < max_loops`
elimination loops (`max_loops = 10`); `if firstDied:` is Python
truthiness, so both a missing result and steam id 0 stop the loop. -/
def elimLoop (sel : Frame → TeamState) : Nat → GameRound → GameRound
  | 0, r => r
  | fuel + 1, r =>
      if firstSideLen r sel > 5 then
        match findFirstDeadPlayer r sel with
        | some sid =>
            if sid == 0 then r
            else elimLoop sel fuel (remove_player_from_round r sid)
        | none => r
      else r

/-- the acceptance test: both live first-frame side lengths within
`[min_players, max_players] = [3, 5]` (the `any(... is not None)`
conjunct is always true after the repair step). -/
def acceptRound (r : GameRound) : Bool :=
  decide (firstSideLen r frameT ≤ 5) && decide (3 ≤ firstSideLen r frameT) &&
  decide (firstSideLen r frameCT ≤ 5) && decide (3 ≤ firstSideLen r frameCT)

/-- guarded `remove_coaches_in_origin`: only when a live first-frame
side exceeds 5 players. -/
def coachStep1 (r : GameRound) : GameRound :=
  if firstSideLen r frameT > 5 ∨ firstSideLen r frameCT > 5
  then remove_coaches_in_origin r else r

/-- guarded `remove_coaches_not_moving`, re-checking the live lengths. -/
def coachStep2 (r : GameRound) : GameRound :=
  if firstSideLen r frameT > 5 ∨ firstSideLen r frameCT > 5
  then remove_coaches_not_moving r else r

/-- the UNCONDITIONAL "Forcing teams based on player position" step:
every first-frame player whose reported side disagrees with
`get_player_side` is switched, whatever the roster sizes. -/
def sideCorrectionStep (mapName : String) (r : GameRound) : GameRound :=
  match (r.frames.getD []).head? with
  | some f0 =>
      (switchedPlayers mapName f0).foldl (fun acc sid => switch_player_side acc sid) r
  | none => r

/-- the per-round body of `remove_excess_players`, after the
nonempty-frames check: repair, guarded coach removals, unconditional
position-based side correction, the two t-side and one ct-side
elimination loops. -/
def processRound (mapName : String) (r0 : GameRound) : GameRound :=
  elimLoop frameCT 10 (elimLoop frameT 10 (elimLoop frameT 10
    (sideCorrectionStep mapName (coachStep2 (coachStep1 (repairRound r0))))))

/-- per-round decision of `remove_excess_players`: `continue` (drop) on
a falsy (null or empty) frame list, otherwise process and keep iff the
acceptance test passes. -/
def excessStep (mapName : String) (r : GameRound) : Option GameRound :=
  if (r.frames.getD []).isEmpty then none
  else if acceptRound (processRound mapName r)
  then some (processRound mapName r) else none

/-- `remove_excess_players`: a no-op (with a warning) when frame parsing
was disabled. -/
def remove_excess_players (parseFrames : Bool) (g : Game) : Game :=
  if parseFrames then
    { g with gameRounds := some ((g.gameRounds.getD []).filterMap (excessStep g.mapName)) }
  else g

/-! ## Claim C2 -/

def allPlayersPresent (r : GameRound) : Bool :=
  r.tSide.players.isSome && r.ctSide.players.isSome &&
  (r.frames.getD []).all (fun f => f.t.players.isSome && f.ct.players.isSome)

def sidesConsistent (mapName : String) (f0 : Frame) : Bool :=
  ((f0.t.players.getD []) ++ (f0.ct.players.getD [])).all
    (fun p => get_player_side p mapName == p.side)

/-- a round `remove_excess_players` should leave alone: nonempty frames,
all player lists present, both first-frame sides sized in `[3, 5]`, and
every first-frame player's reported side matching the inferred one. -/
def calmRound (mapName : String) (r : GameRound) : Bool :=
  !(r.frames.getD []).isEmpty &&
  allPlayersPresent r &&
  decide (3 ≤ firstSideLen r frameT) && decide (firstSideLen r frameT ≤ 5) &&
  decide (3 ≤ firstSideLen r frameCT) && decide (firstSideLen r frameCT ≤ 5) &&
  (match (r.frames.getD []).head? with
   | some f0 => sidesConsistent mapName f0
   | none => false)

theorem map_id_on {α : Type} (g : α → α) (l : List α) (h : ∀ x ∈ l, g x = x) :
    l.map g = l := by
  induction l with
  | nil => rfl
  | cons x xs ih =>
      rw [List.map_cons, h x (by simp), ih (fun z hz => h z (by simp [hz]))]

theorem filterMap_nil_of_none {α β : Type} (f : α → Option β) (l : List α)
    (h : ∀ x ∈ l, f x = none) : l.filterMap f = [] := by
  induction l with
  | nil => rfl
  | cons x xs ih =>
      rw [List.filterMap_cons, h x (by simp)]
      exact ih (fun z hz => h z (by simp [hz]))

theorem repairTeam_id (t : TeamState) (h : t.players.isSome = true) :
    repairTeam t = t := by
  obtain ⟨name, players⟩ := t
  cases players with
  | none => simp at h
  | some l => rfl

theorem repairFrame_id (f : Frame) (ht : f.t.players.isSome = true)
    (hc : f.ct.players.isSome = true) : repairFrame f = f := by
  unfold repairFrame
  rw [repairTeam_id f.t ht, repairTeam_id f.ct hc]

theorem repairRound_id (r : GameRound) (h : allPlayersPresent r = true) :
    repairRound r = r := by
  unfold allPlayersPresent at h
  simp only [Bool.and_eq_true, List.all_eq_true] at h
  obtain ⟨⟨ht, hc⟩, hf⟩ := h
  unfold repairRound
  rw [repairTeam_id r.tSide ht, repairTeam_id r.ctSide hc]
  have hframes : r.frames.map (fun fs => fs.map repairFrame) = r.frames := by
    cases hfe : r.frames with
    | none => rfl
    | some fs =>
        show some (fs.map repairFrame) = some fs
        have hmap : fs.map repairFrame = fs := by
          apply map_id_on
          intro x hx
          have hx2 := hf x (by rw [hfe]; exact hx)
          simp only [Bool.and_eq_true] at hx2
          exact repairFrame_id x hx2.1 hx2.2
        rw [hmap]
  rw [hframes]

theorem elimLoop_skip (sel : Frame → TeamState) (fuel : Nat) (r : GameRound)
    (h : ¬ firstSideLen r sel > 5) : elimLoop sel fuel r = r := by
  cases fuel with
  | zero => rfl
  | succ n =>
      show (if firstSideLen r sel > 5 then
        (match findFirstDeadPlayer r sel with
         | some sid =>
             if sid == 0 then r
             else elimLoop sel n (remove_player_from_round r sid)
         | none => r)
        else r) = r
      rw [if_neg h]

/-- Claim C2 as amended: coach removal and earliest-death elimination run
only when a live first-frame side exceeds 5 players, but position-based
side correction, the missing-list repair and the `[3,5]` acceptance test
run on every round that has frames.  A round with nonempty frames whose
player lists are all present, whose first-frame sides both hold 3 to 5
players, and whose first-frame players' reported sides all match the
position-inferred side, passes through unmodified and is retained;
a round outside those bounds (even with both sides at most 5) is
dropped. -/
theorem C2_amended :
    (∀ g : Game, remove_excess_players true g =
      { g with gameRounds := some ((g.gameRounds.getD []).filterMap (excessStep g.mapName)) }) ∧
    (∀ (mapName : String) (r : GameRound), calmRound mapName r = true →
      excessStep mapName r = some r) := by
  constructor
  · intro g
    rfl
  · intro mapName r h
    unfold calmRound at h
    simp only [Bool.and_eq_true] at h
    obtain ⟨⟨⟨⟨⟨⟨hne, hap⟩, h3t⟩, h5t⟩, h3c⟩, h5c⟩, hcons⟩ := h
    have hne' : (r.frames.getD []).isEmpty = false := by
      cases hh : (r.frames.getD []).isEmpty
      · rfl
      · rw [hh] at hne
        simp at hne
    obtain ⟨f0, rest, hf0⟩ : ∃ f0 rest, r.frames.getD [] = f0 :: rest := by
      cases hfe : r.frames.getD [] with
      | nil => rw [hfe] at hne'; simp at hne'
      | cons f0 rest => exact ⟨f0, rest, rfl⟩
    have hcons' : sidesConsistent mapName f0 = true := by
      rw [hf0] at hcons
      exact hcons
    have hngt : ¬ firstSideLen r frameT > 5 := by
      have := of_decide_eq_true h5t
      omega
    have hngc : ¬ firstSideLen r frameCT > 5 := by
      have := of_decide_eq_true h5c
      omega
    have hng : ¬ (firstSideLen r frameT > 5 ∨ firstSideLen r frameCT > 5) := by
      omega
    have hsw : switchedPlayers mapName f0 = [] := by
      unfold switchedPlayers
      have hfm : ((f0.t.players.getD []) ++ (f0.ct.players.getD [])).filterMap
          (fun p => if get_player_side p mapName != p.side then some p.steamID else none)
          = [] := by
        apply filterMap_nil_of_none
        intro p hp
        have hpc := List.all_eq_true.mp hcons' p hp
        have : (get_player_side p mapName != p.side) = false := by
          simpa [bne] using hpc
        rw [this]
        rfl
      rw [hfm]
      rfl
    have hproc : processRound mapName r = r := by
      unfold processRound
      rw [repairRound_id r hap]
      rw [show coachStep1 r = r from by unfold coachStep1; rw [if_neg hng]]
      rw [show coachStep2 r = r from by unfold coachStep2; rw [if_neg hng]]
      rw [show sideCorrectionStep mapName r = r from by
        unfold sideCorrectionStep
        rw [hf0]
        show (switchedPlayers mapName f0).foldl (fun acc sid => switch_player_side acc sid) r = r
        rw [hsw]
        rfl]
      rw [elimLoop_skip frameT 10 r hngt, elimLoop_skip frameT 10 r hngt,
        elimLoop_skip frameCT 10 r hngc]
    have hacc : acceptRound r = true := by
      unfold acceptRound
      rw [h3t, h5t, h3c, h5c]
      rfl
    unfold excessStep
    rw [hne', hproc]
    simp only [Bool.false_eq_true, if_false]
    rw [if_pos hacc]

def f2small : Frame :=
  { tick := 0, globalFrameID := 0,
    t := { teamName := "TeamA", players := some [fieldP 41 "T", fieldP 42 "T"] },
    ct := { teamName := "TeamB",
            players := some [fieldP 43 "CT", fieldP 44 "CT", fieldP 45 "CT"] } }

def r2small : GameRound := { baseRound with frames := some [f2small] }

def g2 : Game :=
  { mapName := "de_dust2", warmupChangedPresent := true, gameRounds := some [r2small] }

/-- Claim C2, counterexample: a round whose first frame has 2 players on
the t side and 3 on the ct side — neither side exceeding 5 — is dropped
by `remove_excess_players` (the `[3,5]` acceptance test runs on every
round, not only on oversized ones), instead of passing through retained
as the claim states. -/
theorem C2_counterexample :
    firstSideLen r2small frameT = 2 ∧
    firstSideLen r2small frameCT = 3 ∧
    (remove_excess_players true g2).gameRounds = some [] := by
  refine ⟨by decide, by decide, by decide⟩

def fCalm : Frame :=
  { tick := 0, globalFrameID := 0,
    t := { teamName := "TeamA",
           players := some [fieldP 51 "T", fieldP 52 "T", fieldP 53 "T"] },
    ct := { teamName := "TeamB",
            players := some [fieldP 54 "CT", fieldP 55 "CT", fieldP 56 "CT"] } }

def rCalm : GameRound := { baseRound with frames := some [fCalm] }

/-- Witness for `C2_amended` at a concrete calm round. -/
theorem C2_amended_witness : excessStep "de_dust2" rCalm = some rCalm :=
  C2_amended.2 "de_dust2" rCalm (by decide)

/-! ## Renumbering (`renumber_rounds`, `renumber_frames`, demoparser.py
lines 935-974) -/

def renumberRoundsFrom : Nat → List GameRound → List GameRound
  | _, [] => []
  | i, r :: rs => { r with roundNum := (i : Int) + 1 } :: renumberRoundsFrom (i + 1) rs

/-- `renumber_rounds`: `roundNum = i + 1` over the enumerated rounds; a
null round list is returned unchanged. -/
def renumber_rounds (g : Game) : Game :=
  match g.gameRounds with
  | none => g
  | some rounds => { g with gameRounds := some (renumberRoundsFrom 0 rounds) }

def renumberFramesFrom : Nat → List Frame → List Frame
  | _, [] => []
  | n, f :: fs => { f with globalFrameID := (n : Int) } :: renumberFramesFrom (n + 1) fs

/-- the generator `frame for round in rounds for frame in round["frames"]
or []` with `globalFrameID = index`: rounds with a null frame list are
left untouched and contribute nothing to the numbering. -/
def renumberRoundsFramesFrom : Nat → List GameRound → List GameRound
  | _, [] => []
  | n, r :: rs =>
      match r.frames with
      | none => r :: renumberRoundsFramesFrom n rs
      | some fs =>
          { r with frames := some (renumberFramesFrom n fs) } ::
            renumberRoundsFramesFrom (n + fs.length) rs

/-- `renumber_frames`; a null round list is returned unchanged. -/
def renumber_frames (g : Game) : Game :=
  match g.gameRounds with
  | none => g
  | some rounds => { g with gameRounds := some (renumberRoundsFramesFrom 0 rounds) }

/-! ## Pipeline orchestrator (`clean_rounds`, demoparser.py lines
850-926; the `save_to_json` / `return_type` plumbing is out of scope) -/

structure CleanConfig where
  removeNoFrames : Bool
  removeWarmups : Bool
  removeKnifes : Bool
  removeBadTimings : Bool
  removeExcessPlayers : Bool
  removeExcessKills : Bool
  removeBadEndings : Bool
  removeBadScoring : Bool
  deriving DecidableEq

def applyIf (b : Bool) (f : Game → Game) (g : Game) : Game :=
  if b then f g else g

/-- the eight filter stages of `clean_rounds`, in source order. -/
def stagePipeline (cfg : CleanConfig) (parseFrames : Bool) (g : Game) : Game :=
  applyIf cfg.removeBadScoring remove_bad_scoring
    (applyIf cfg.removeBadEndings remove_end_round
      (applyIf cfg.removeExcessKills remove_excess_kill_rounds
        (applyIf cfg.removeExcessPlayers (remove_excess_players parseFrames)
          (applyIf cfg.removeBadTimings remove_time_rounds
            (applyIf cfg.removeKnifes remove_knife_rounds
              (applyIf cfg.removeWarmups remove_warmups
                (applyIf cfg.removeNoFrames (remove_rounds_with_no_frames parseFrames) g)))))))

/-- `clean_rounds`: the enabled filters in order, then the two
renumbering passes, which always run. -/
def clean_rounds (cfg : CleanConfig) (parseFrames : Bool) (g : Game) : Game :=
  renumber_frames (renumber_rounds (stagePipeline cfg parseFrames g))

/-- the default configuration: every removal flag on. -/
def allOn : CleanConfig :=
  { removeNoFrames := true, removeWarmups := true, removeKnifes := true,
    removeBadTimings := true, removeExcessPlayers := true,
    removeExcessKills := true, removeBadEndings := true, removeBadScoring := true }

/-! ## Someness of the stage pipeline -/

theorem applyIf_some (b : Bool) (f : Game → Game)
    (hf : ∀ g : Game, g.gameRounds.isSome = true → (f g).gameRounds.isSome = true)
    (g : Game) (h : g.gameRounds.isSome = true) :
    (applyIf b f g).gameRounds.isSome = true := by
  cases b
  · exact h
  · exact hf g h

theorem remove_rounds_with_no_frames_some (pf : Bool) (g : Game)
    (h : g.gameRounds.isSome = true) :
    (remove_rounds_with_no_frames pf g).gameRounds.isSome = true := by
  cases pf
  · exact h
  · rfl

theorem remove_warmups_some (g : Game) (_h : g.gameRounds.isSome = true) :
    (remove_warmups g).gameRounds.isSome = true := rfl

theorem remove_knife_rounds_some (g : Game) (h : g.gameRounds.isSome = true) :
    (remove_knife_rounds g).gameRounds.isSome = true := by
  obtain ⟨l, hl⟩ := Option.isSome_iff_exists.mp h
  unfold remove_knife_rounds
  rw [hl]
  rfl

theorem remove_time_rounds_some (g : Game) (_h : g.gameRounds.isSome = true) :
    (remove_time_rounds g).gameRounds.isSome = true := rfl

theorem remove_excess_players_some (pf : Bool) (g : Game)
    (h : g.gameRounds.isSome = true) :
    (remove_excess_players pf g).gameRounds.isSome = true := by
  cases pf
  · exact h
  · rfl

theorem remove_excess_kill_rounds_some (g : Game) (_h : g.gameRounds.isSome = true) :
    (remove_excess_kill_rounds g).gameRounds.isSome = true := rfl

theorem remove_end_round_some (g : Game) (h : g.gameRounds.isSome = true) :
    (remove_end_round g).gameRounds.isSome = true := by
  obtain ⟨l, hl⟩ := Option.isSome_iff_exists.mp h
  unfold remove_end_round
  rw [hl]
  rfl

theorem remove_bad_scoring_some (g : Game) (h : g.gameRounds.isSome = true) :
    (remove_bad_scoring g).gameRounds.isSome = true := by
  obtain ⟨l, hl⟩ := Option.isSome_iff_exists.mp h
  unfold remove_bad_scoring
  rw [hl]
  rfl

theorem stagePipeline_some (cfg : CleanConfig) (pf : Bool) (g : Game)
    (h : g.gameRounds.isSome = true) :
    (stagePipeline cfg pf g).gameRounds.isSome = true := by
  unfold stagePipeline
  apply applyIf_some _ _ remove_bad_scoring_some
  apply applyIf_some _ _ remove_end_round_some
  apply applyIf_some _ _ remove_excess_kill_rounds_some
  apply applyIf_some _ _ (remove_excess_players_some pf)
  apply applyIf_some _ _ remove_time_rounds_some
  apply applyIf_some _ _ remove_knife_rounds_some
  apply applyIf_some _ _ remove_warmups_some
  apply applyIf_some _ _ (remove_rounds_with_no_frames_some pf)
  exact h

/-! ## Claim C8 -/

/-- all frames of a round list, rounds in order and frames within a
round in order (null frame lists contributing nothing). -/
def allFrames (rounds : List GameRound) : List Frame :=
  rounds.foldr (fun r acc => r.frames.getD [] ++ acc) []

def stripRoundNum (r : GameRound) : GameRound := { r with roundNum := 0 }

def stripFrameIDs (r : GameRound) : GameRound :=
  { r with frames := r.frames.map (fun fs => fs.map (fun f => { f with globalFrameID := 0 })) }

theorem map_fun_congr {α β : Type} (f g : α → β) (l : List α)
    (h : ∀ a ∈ l, f a = g a) : l.map f = l.map g := by
  induction l with
  | nil => rfl
  | cons x xs ih =>
      rw [List.map_cons, List.map_cons, h x (by simp),
        ih (fun z hz => h z (by simp [hz]))]

theorem renumberRoundsFrom_map (n : Nat) (rs : List GameRound) :
    (renumberRoundsFrom n rs).map (fun r => r.roundNum)
      = (List.range rs.length).map (fun i => ((n + i : Nat) : Int) + 1) := by
  induction rs generalizing n with
  | nil => rfl
  | cons r rs ih =>
      show ((n : Int) + 1) :: (renumberRoundsFrom (n + 1) rs).map (fun r => r.roundNum)
        = (List.range (rs.length + 1)).map (fun i => ((n + i : Nat) : Int) + 1)
      rw [List.range_succ_eq_map, List.map_cons, List.map_map, ih (n + 1)]
      have harith : ∀ i : Nat, ((n + 1 + i : Nat) : Int) + 1
          = (((fun i => ((n + i : Nat) : Int) + 1) ∘ Nat.succ) i) := by
        intro i
        simp only [Function.comp]
        have : n + 1 + i = n + Nat.succ i := by omega
        rw [this]
      rw [map_fun_congr _ _ (List.range rs.length) (fun i _ => harith i)]
      simp

theorem renumberRoundsFrom_length (n : Nat) (rs : List GameRound) :
    (renumberRoundsFrom n rs).length = rs.length := by
  induction rs generalizing n with
  | nil => rfl
  | cons r rs ih =>
      show (renumberRoundsFrom (n + 1) rs).length + 1 = rs.length + 1
      rw [ih (n + 1)]

theorem renumberRoundsFrom_allFrames (n : Nat) (rs : List GameRound) :
    allFrames (renumberRoundsFrom n rs) = allFrames rs := by
  induction rs generalizing n with
  | nil => rfl
  | cons r rs ih =>
      show ({ r with roundNum := (n : Int) + 1 } : GameRound).frames.getD []
          ++ allFrames (renumberRoundsFrom (n + 1) rs)
        = r.frames.getD [] ++ allFrames rs
      rw [ih (n + 1)]

theorem renumberFramesFrom_map (n : Nat) (fs : List Frame) :
    (renumberFramesFrom n fs).map (fun f => f.globalFrameID)
      = (List.range fs.length).map (fun i => ((n + i : Nat) : Int)) := by
  induction fs generalizing n with
  | nil => rfl
  | cons f fs ih =>
      show (n : Int) :: (renumberFramesFrom (n + 1) fs).map (fun f => f.globalFrameID)
        = (List.range (fs.length + 1)).map (fun i => ((n + i : Nat) : Int))
      rw [List.range_succ_eq_map, List.map_cons, List.map_map, ih (n + 1)]
      have harith : ∀ i : Nat, ((n + 1 + i : Nat) : Int)
          = (((fun i => ((n + i : Nat) : Int)) ∘ Nat.succ) i) := by
        intro i
        simp only [Function.comp]
        have : n + 1 + i = n + Nat.succ i := by omega
        rw [this]
      rw [map_fun_congr _ _ (List.range fs.length) (fun i _ => harith i)]
      simp

theorem renumberFramesFrom_length (n : Nat) (fs : List Frame) :
    (renumberFramesFrom n fs).length = fs.length := by
  induction fs generalizing n with
  | nil => rfl
  | cons f fs ih =>
      show (renumberFramesFrom (n + 1) fs).length + 1 = fs.length + 1
      rw [ih (n + 1)]

theorem renumberRoundsFramesFrom_cons (n : Nat) (r : GameRound) (rs : List GameRound) :
    renumberRoundsFramesFrom n (r :: rs) =
      (match r.frames with
       | none => r :: renumberRoundsFramesFrom n rs
       | some fs => { r with frames := some (renumberFramesFrom n fs) } ::
           renumberRoundsFramesFrom (n + fs.length) rs) := rfl

theorem renumberRoundsFramesFrom_gids (n : Nat) (rs : List GameRound) :
    (allFrames (renumberRoundsFramesFrom n rs)).map (fun f => f.globalFrameID)
      = (List.range (allFrames rs).length).map (fun i => ((n + i : Nat) : Int)) := by
  induction rs generalizing n with
  | nil => rfl
  | cons r rs ih =>
      rw [renumberRoundsFramesFrom_cons]
      cases hf : r.frames with
      | none =>
          show (allFrames (r :: renumberRoundsFramesFrom n rs)).map (fun f => f.globalFrameID)
            = (List.range (allFrames (r :: rs)).length).map (fun i => ((n + i : Nat) : Int))
          have h1 : allFrames (r :: renumberRoundsFramesFrom n rs)
              = r.frames.getD [] ++ allFrames (renumberRoundsFramesFrom n rs) := rfl
          have h2 : allFrames (r :: rs) = r.frames.getD [] ++ allFrames rs := rfl
          rw [h1, h2, hf]
          show (allFrames (renumberRoundsFramesFrom n rs)).map (fun f => f.globalFrameID)
            = (List.range (allFrames rs).length).map (fun i => ((n + i : Nat) : Int))
          exact ih n
      | some fs =>
          show (allFrames ({ r with frames := some (renumberFramesFrom n fs) } ::
              renumberRoundsFramesFrom (n + fs.length) rs)).map (fun f => f.globalFrameID)
            = (List.range (allFrames (r :: rs)).length).map (fun i => ((n + i : Nat) : Int))
          have h1 : allFrames ({ r with frames := some (renumberFramesFrom n fs) } ::
              renumberRoundsFramesFrom (n + fs.length) rs)
              = renumberFramesFrom n fs ++ allFrames (renumberRoundsFramesFrom (n + fs.length) rs) := rfl
          have h2 : allFrames (r :: rs) = r.frames.getD [] ++ allFrames rs := rfl
          rw [h1, h2, hf]
          show (renumberFramesFrom n fs ++
              allFrames (renumberRoundsFramesFrom (n + fs.length) rs)).map (fun f => f.globalFrameID)
            = (List.range (fs ++ allFrames rs).length).map (fun i => ((n + i : Nat) : Int))
          rw [List.map_append, renumberFramesFrom_map n fs, ih (n + fs.length),
            List.length_append, List.range_add, List.map_append, List.map_map]
          congr 1
          apply map_fun_congr
          intro i _
          simp only [Function.comp]
          have : n + (fs.length + i) = n + fs.length + i := by omega
          rw [this]

theorem renumberRoundsFramesFrom_roundNums (n : Nat) (rs : List GameRound) :
    (renumberRoundsFramesFrom n rs).map (fun r => r.roundNum)
      = rs.map (fun r => r.roundNum) := by
  induction rs generalizing n with
  | nil => rfl
  | cons r rs ih =>
      rw [renumberRoundsFramesFrom_cons]
      cases hf : r.frames with
      | none =>
          show r.roundNum :: (renumberRoundsFramesFrom n rs).map (fun r => r.roundNum)
            = r.roundNum :: rs.map (fun r => r.roundNum)
          rw [ih n]
      | some fs =>
          show r.roundNum :: (renumberRoundsFramesFrom (n + fs.length) rs).map (fun r => r.roundNum)
            = r.roundNum :: rs.map (fun r => r.roundNum)
          rw [ih (n + fs.length)]

theorem renumberRoundsFramesFrom_length (n : Nat) (rs : List GameRound) :
    (renumberRoundsFramesFrom n rs).length = rs.length := by
  have h := renumberRoundsFramesFrom_roundNums n rs
  have := congrArg List.length h
  simpa using this

theorem renumberRoundsFrom_strip (n : Nat) (rs : List GameRound) :
    (renumberRoundsFrom n rs).map stripRoundNum = rs.map stripRoundNum := by
  induction rs generalizing n with
  | nil => rfl
  | cons r rs ih =>
      show stripRoundNum { r with roundNum := (n : Int) + 1 } ::
          (renumberRoundsFrom (n + 1) rs).map stripRoundNum
        = stripRoundNum r :: rs.map stripRoundNum
      rw [ih (n + 1)]
      rfl

theorem renumberFramesFrom_strip (n : Nat) (fs : List Frame) :
    (renumberFramesFrom n fs).map (fun f => ({ f with globalFrameID := 0 } : Frame))
      = fs.map (fun f => ({ f with globalFrameID := 0 } : Frame)) := by
  induction fs generalizing n with
  | nil => rfl
  | cons f fs ih =>
      show ({ f with globalFrameID := 0 } : Frame) ::
          (renumberFramesFrom (n + 1) fs).map (fun f => ({ f with globalFrameID := 0 } : Frame))
        = ({ f with globalFrameID := 0 } : Frame) ::
          fs.map (fun f => ({ f with globalFrameID := 0 } : Frame))
      rw [ih (n + 1)]

theorem renumberRoundsFramesFrom_strip (n : Nat) (rs : List GameRound) :
    (renumberRoundsFramesFrom n rs).map stripFrameIDs = rs.map stripFrameIDs := by
  induction rs generalizing n with
  | nil => rfl
  | cons r rs ih =>
      rw [renumberRoundsFramesFrom_cons]
      cases hf : r.frames with
      | none =>
          show stripFrameIDs r :: (renumberRoundsFramesFrom n rs).map stripFrameIDs
            = stripFrameIDs r :: rs.map stripFrameIDs
          rw [ih n]
      | some fs =>
          show stripFrameIDs { r with frames := some (renumberFramesFrom n fs) } ::
              (renumberRoundsFramesFrom (n + fs.length) rs).map stripFrameIDs
            = stripFrameIDs r :: rs.map stripFrameIDs
          rw [ih (n + fs.length)]
          have hhd : stripFrameIDs { r with frames := some (renumberFramesFrom n fs) }
              = stripFrameIDs r := by
            unfold stripFrameIDs
            rw [hf]
            show ({ r with frames := some ((renumberFramesFrom n fs).map
              (fun f => ({ f with globalFrameID := 0 } : Frame))) } : GameRound)
              = { r with frames := some (fs.map (fun f => ({ f with globalFrameID := 0 } : Frame))) }
            rw [renumberFramesFrom_strip n fs]
          rw [hhd]

/-- Claim C8: after `clean_rounds` on a loaded record with a non-null
round list (any configuration), the surviving rounds' `roundNum` fields
are exactly `1..N` in list order and the `globalFrameID` fields across
all surviving frames, in round order and frame order, are exactly
`0..M-1`; and the two renumbering passes alter no field other than
`roundNum` resp. `globalFrameID`. -/
theorem C8_renumbering :
    (∀ (cfg : CleanConfig) (pf : Bool) (g : Game) (l : List GameRound),
      g.gameRounds = some l →
      ∃ l2, (clean_rounds cfg pf g).gameRounds = some l2 ∧
        l2.map (fun r => r.roundNum)
          = (List.range l2.length).map (fun (i : Nat) => (i : Int) + 1) ∧
        (allFrames l2).map (fun f => f.globalFrameID)
          = (List.range (allFrames l2).length).map (fun (i : Nat) => (i : Int))) ∧
    (∀ rounds : List GameRound,
      (renumberRoundsFrom 0 rounds).map stripRoundNum = rounds.map stripRoundNum) ∧
    (∀ rounds : List GameRound,
      (renumberRoundsFramesFrom 0 rounds).map stripFrameIDs = rounds.map stripFrameIDs) := by
  refine ⟨?_, renumberRoundsFrom_strip 0, renumberRoundsFramesFrom_strip 0⟩
  intro cfg pf g l h
  have hsome : (stagePipeline cfg pf g).gameRounds.isSome = true :=
    stagePipeline_some cfg pf g (by rw [h]; rfl)
  obtain ⟨lmid, hmid⟩ := Option.isSome_iff_exists.mp hsome
  refine ⟨renumberRoundsFramesFrom 0 (renumberRoundsFrom 0 lmid), ?_, ?_, ?_⟩
  · unfold clean_rounds renumber_rounds
    rw [hmid]
    show (renumber_frames { stagePipeline cfg pf g with
      gameRounds := some (renumberRoundsFrom 0 lmid) }).gameRounds
      = some (renumberRoundsFramesFrom 0 (renumberRoundsFrom 0 lmid))
    unfold renumber_frames
    rfl
  · rw [renumberRoundsFramesFrom_roundNums, renumberRoundsFrom_map,
      renumberRoundsFramesFrom_length, renumberRoundsFrom_length]
    apply map_fun_congr
    intro i _
    simp
  · rw [renumberRoundsFramesFrom_gids]
    rw [renumberRoundsFrom_allFrames]
    have hlen : (allFrames (renumberRoundsFramesFrom 0 (renumberRoundsFrom 0 lmid))).length
        = (allFrames lmid).length := by
      have h1 := renumberRoundsFramesFrom_gids 0 (renumberRoundsFrom 0 lmid)
      have h2 := congrArg List.length h1
      simp only [List.length_map, List.length_range] at h2
      rw [h2, renumberRoundsFrom_allFrames]
    rw [hlen]
    apply map_fun_congr
    intro i _
    simp

def g8w : Game :=
  { mapName := "de_dust2", warmupChangedPresent := true, gameRounds := some [baseRound] }

/-- Witness for the pipeline part of `C8_renumbering` at a concrete
loaded record. -/
theorem C8_witness :
    ∃ l2, (clean_rounds allOn true g8w).gameRounds = some l2 ∧
      l2.map (fun r => r.roundNum)
        = (List.range l2.length).map (fun (i : Nat) => (i : Int) + 1) ∧
      (allFrames l2).map (fun f => f.globalFrameID)
        = (List.range (allFrames l2).length).map (fun (i : Nat) => (i : Int)) :=
  C8_renumbering.1 allOn true g8w [baseRound] rfl

/-! ## Claim C9 -/

theorem game_eta_empty (g : Game) (h : g.gameRounds = some []) :
    ({ g with gameRounds := some ([] : List GameRound) } : Game) = g := by
  obtain ⟨m, w, gr⟩ := g
  simp only at h
  rw [h]

theorem remove_warmups_empty (g : Game) (h : g.gameRounds = some []) :
    remove_warmups g = g := by
  unfold remove_warmups
  rw [h]
  have hcl : (if g.warmupChangedPresent then
      List.filter (fun r => !r.isWarmup) ((some ([] : List GameRound)).getD [])
    else []) = ([] : List GameRound) := by
    cases g.warmupChangedPresent <;> rfl
  rw [hcl]
  exact game_eta_empty g h

theorem remove_rounds_with_no_frames_empty (pf : Bool) (g : Game)
    (h : g.gameRounds = some []) : remove_rounds_with_no_frames pf g = g := by
  cases pf
  · rfl
  · unfold remove_rounds_with_no_frames
    rw [h]
    exact game_eta_empty g h

theorem remove_knife_rounds_empty (g : Game) (h : g.gameRounds = some []) :
    remove_knife_rounds g = g := by
  unfold remove_knife_rounds
  rw [h]
  exact game_eta_empty g h

theorem remove_time_rounds_empty (g : Game) (h : g.gameRounds = some []) :
    remove_time_rounds g = g := by
  unfold remove_time_rounds
  rw [h]
  exact game_eta_empty g h

theorem remove_excess_players_empty (pf : Bool) (g : Game)
    (h : g.gameRounds = some []) : remove_excess_players pf g = g := by
  cases pf
  · rfl
  · unfold remove_excess_players
    rw [h]
    exact game_eta_empty g h

theorem remove_excess_kill_rounds_empty (g : Game) (h : g.gameRounds = some []) :
    remove_excess_kill_rounds g = g := by
  unfold remove_excess_kill_rounds
  rw [h]
  exact game_eta_empty g h

theorem remove_end_round_empty (g : Game) (h : g.gameRounds = some []) :
    remove_end_round g = g := by
  unfold remove_end_round
  rw [h]
  exact game_eta_empty g h

theorem remove_bad_scoring_empty (g : Game) (h : g.gameRounds = some []) :
    remove_bad_scoring g = g := by
  unfold remove_bad_scoring
  rw [h]
  exact game_eta_empty g h

theorem renumber_rounds_empty (g : Game) (h : g.gameRounds = some []) :
    renumber_rounds g = g := by
  unfold renumber_rounds
  rw [h]
  exact game_eta_empty g h

theorem renumber_frames_empty (g : Game) (h : g.gameRounds = some []) :
    renumber_frames g = g := by
  unfold renumber_frames
  rw [h]
  exact game_eta_empty g h

theorem applyIf_empty (b : Bool) (f : Game → Game)
    (hf : ∀ g : Game, g.gameRounds = some [] → f g = g)
    (g : Game) (h : g.gameRounds = some []) : applyIf b f g = g := by
  cases b
  · rfl
  · exact hf g h

theorem clean_rounds_empty_fixed (cfg : CleanConfig) (pf : Bool) (g : Game)
    (h : g.gameRounds = some []) : clean_rounds cfg pf g = g := by
  unfold clean_rounds stagePipeline
  rw [applyIf_empty _ _ (remove_rounds_with_no_frames_empty pf) g h,
    applyIf_empty _ _ remove_warmups_empty g h,
    applyIf_empty _ _ remove_knife_rounds_empty g h,
    applyIf_empty _ _ remove_time_rounds_empty g h,
    applyIf_empty _ _ (remove_excess_players_empty pf) g h,
    applyIf_empty _ _ remove_excess_kill_rounds_empty g h,
    applyIf_empty _ _ remove_end_round_empty g h,
    applyIf_empty _ _ remove_bad_scoring_empty g h,
    renumber_rounds_empty g h, renumber_frames_empty g h]

/-- Claim C9 as amended: the pipeline is NOT idempotent in general (see
the counterexample: a cleaned record with exactly one surviving round
loses that round on a second run, via the score checker's lone-round
behaviour); re-running `clean_rounds` changes nothing when the first run
leaves no surviving rounds. -/
theorem C9_amended (cfg : CleanConfig) (pf : Bool) (g : Game)
    (h : (clean_rounds cfg pf g).gameRounds = some []) :
    clean_rounds cfg pf (clean_rounds cfg pf g) = clean_rounds cfg pf g :=
  clean_rounds_empty_fixed cfg pf (clean_rounds cfg pf g) h

def gEmpty : Game :=
  { mapName := "de_dust2", warmupChangedPresent := true, gameRounds := some [] }

/-- Witness for `C9_amended` at a concrete record. -/
theorem C9_amended_witness :
    clean_rounds allOn true (clean_rounds allOn true gEmpty)
      = clean_rounds allOn true gEmpty :=
  C9_amended allOn true gEmpty (by decide)

def t9Player (sid : Int) : Player :=
  { steamID := sid, name := "t", side := "T", x := 4, y := 4, z := 4, isAlive := true }

def ct9Player (sid : Int) : Player :=
  { steamID := sid, name := "c", side := "CT", x := 6, y := 6, z := 6, isAlive := true }

def f9a : Frame :=
  { tick := 0, globalFrameID := 0,
    t := { teamName := "TeamA", players := some [t9Player 1, t9Player 2, t9Player 3] },
    ct := { teamName := "TeamB", players := some [ct9Player 4, ct9Player 5, ct9Player 6] } }

def r9a : GameRound :=
  { roundNum := 1, isWarmup := false,
    startTick := 0, freezeTimeEndTick := 1, endTick := 2, endOfficialTick := 3,
    tScore := 10, ctScore := 15, endTScore := 10, endCTScore := 16,
    winningSide := "CT", roundEndReason := "CTWin",
    tSide := { teamName := "TeamA", players := some [] },
    ctSide := { teamName := "TeamB", players := some [] },
    frames := some [f9a],
    kills := some [], damages := some [], grenades := some [],
    flashes := some [], weaponFires := some [] }

def f9b : Frame :=
  { tick := 10, globalFrameID := 1,
    t := { teamName := "TeamA", players := some [t9Player 1, t9Player 2, t9Player 3] },
    ct := { teamName := "TeamB", players := some [ct9Player 4, ct9Player 5, ct9Player 6] } }

def r9b : GameRound :=
  { roundNum := 2, isWarmup := false,
    startTick := 0, freezeTimeEndTick := 1, endTick := 2, endOfficialTick := 3,
    tScore := 0, ctScore := 0, endTScore := 0, endCTScore := 0,
    winningSide := "CT", roundEndReason := "TargetBombed",
    tSide := { teamName := "TeamA", players := some [] },
    ctSide := { teamName := "TeamB", players := some [] },
    frames := some [f9b],
    kills := some [], damages := some [], grenades := some [],
    flashes := some [], weaponFires := some [] }

def g9 : Game :=
  { mapName := "de_dust2", warmupChangedPresent := true,
    gameRounds := some [r9a, r9b] }

/-- Claim C9, counterexample: on the record `g9` the first full run of
`clean_rounds` (all stages on) keeps exactly one round — `r9a` survives
the score checker as a regulation terminal win, `r9b` is dropped — and
the second run removes that lone round (the score checker's final-round
lookback at index `-1` compares the round against itself), so re-running
the pipeline on the already-cleaned record changes the record. -/
theorem C9_counterexample :
    ((clean_rounds allOn true g9).gameRounds.getD []).length = 1 ∧
    ((clean_rounds allOn true (clean_rounds allOn true g9)).gameRounds.getD []).length = 0 ∧
    clean_rounds allOn true (clean_rounds allOn true g9) ≠ clean_rounds allOn true g9 := by
  refine ⟨by decide, by decide, by decide⟩
